import Mathlib

/-!
Block-wise UART driver of the MSP430F5229 LaunchPad + CC2564B port.

Shallow embedding of `port/msp430f5229lp-cc2564b/src/hal_uart_dma.c`.

* The memory-mapped registers the driver touches and its file-scope statics
  are the fields of `State`.  8-bit registers and `uint16_t` counters are
  natural numbers; every read-modify-write truncates explicitly.
* Every register write, every store through `rx_buffer_ptr` and every call
  through a handler pointer is appended to `State.log` in program order, so
  that ordering properties can be stated on the log.
* Values the hardware supplies on a volatile read (`UCA0IV`, `UCA0RXBUF`,
  the interrupt flag register) are arguments of the function that reads them.
* Interrupts are served between calls, and
  `hal_uart_dma_receive_block_preempted` is the execution of
  `hal_uart_dma_receive_block` with interrupts served inside the call, after
  the write that sets `UCRXIE`.
* Completion handlers are code outside the driver.  A call through a handler
  pointer is recorded in the log together with the driver state the handler
  observes on entry; the handler body itself is not executed.
-/

namespace HalUartDma

/-! ## Constants of the device header -/

/-- Modelled from the spec: the device header `msp430.h` is not part of the
sources; `BIT1` is the mask of bit 1, as in the TI header. -/
def BIT1 : Nat := 0x02
/-- Modelled from the spec: `msp430.h` is not part of the sources; mask of bit 3. -/
def BIT3 : Nat := 0x08
/-- Modelled from the spec: `msp430.h` is not part of the sources; mask of bit 4. -/
def BIT4 : Nat := 0x10
/-- Modelled from the spec: `msp430.h` is not part of the sources; mask of bit 6. -/
def BIT6 : Nat := 0x40
/-- Modelled from the spec: `msp430.h` is not part of the sources; software
reset enable bit of `UCA0CTL1`. -/
def UCSWRST : Nat := 0x01
/-- Modelled from the spec: `msp430.h` is not part of the sources; clock source
select SMCLK in `UCA0CTL1`. -/
def UCSSEL_2 : Nat := 0x80
/-- Modelled from the spec: `msp430.h` is not part of the sources; UART mode. -/
def UCMODE_0 : Nat := 0x00
/-- Modelled from the spec: `msp430.h` is not part of the sources; 7-bit
character length select of `UCA0CTL0`. -/
def UC7BIT : Nat := 0x10
/-- Modelled from the spec: `msp430.h` is not part of the sources; receive
interrupt enable bit of `UCA0IE`. -/
def UCRXIE : Nat := 0x01
/-- Modelled from the spec: `msp430.h` is not part of the sources; transmit
interrupt enable bit of `UCA0IE`. -/
def UCTXIE : Nat := 0x02
/-- Modelled from the spec: `msp430.h` is not part of the sources; receive
interrupt flag of the USCI_A0 interrupt flag register. -/
def UCRXIFG : Nat := 0x01
/-- Modelled from the spec: `msp430.h` is not part of the sources; status
register bits of low power mode 0 (`CPUOFF`). -/
def LPM0_bits : Nat := 0x0010

/-! ## Pin assignment (`#define`s at the top of the file) -/

/-- TXD is P3.3. -/
def BT_PIN_TXD : Nat := BIT3
/-- RXD is P3.4. -/
def BT_PIN_RXD : Nat := BIT4
/-- RTS is P2.3. -/
def RTS_PIN : Nat := BIT3
/-- CTS is P2.6. -/
def CTS_PIN : Nat := BIT6
/-- N_SHUTDOWN is P4.1. -/
def N_SHUTDOWN_PIN : Nat := BIT1

/-! ## Machine integers -/

/-- The C expression `~m` on the 16-bit `int` of the MSP430, as an unsigned
bit pattern. -/
def not16 (m : Nat) : Nat := 0xFFFF ^^^ m

/-- The C statement `x |= m` on an 8-bit register. -/
def or8 (x m : Nat) : Nat := (x ||| m) % 256

/-- The C statement `x &= ~m` on an 8-bit register. -/
def andnot8 (x m : Nat) : Nat := (x &&& not16 m) % 256

/-- The C statement `--x` on a `uint16_t`. -/
def dec16 (x : Nat) : Nat := (x + 65535) % 65536

/-! ## Data model -/

/-- Values of type `void (*)(void)`. -/
inductive FnPtr where
  | null
  | dummy_handler
  | fn (id : Nat)
  deriving DecidableEq, Repr

/-- The registers the driver writes. -/
inductive Reg where
  | P2OUT | P2SEL | P2DIR | P2IFG | P2IV | P2IES | P2IE
  | P3OUT | P3SEL | P3DIR
  | P4OUT | P4SEL | P4DIR
  | UCA0CTL0 | UCA0CTL1 | UCA0BR0 | UCA0BR1 | UCA0MCTL | UCA0IE | UCA0TXBUF
  deriving DecidableEq, Repr

/-- What a handler observes of the driver when it is entered. -/
structure Snapshot where
  bytes_to_read : Nat
  bytes_to_write : Nat
  UCA0IE : Nat
  P2OUT : Nat
  deriving DecidableEq, Repr

/-- Observable actions of the driver, in program order. -/
inductive Event where
  | write (r : Reg) (v : Nat)
  | store (addr : Nat) (v : Nat)
  | call (f : FnPtr) (seen : Snapshot)
  | bic_SR_register_on_exit (bits : Nat)
  | waitAboutOneSecond
  deriving DecidableEq, Repr

/-- Registers, file-scope statics, data memory and the log of actions. -/
structure State where
  P2OUT : Nat
  P2SEL : Nat
  P2DIR : Nat
  P2IFG : Nat
  P2IV : Nat
  P2IES : Nat
  P2IE : Nat
  P3OUT : Nat
  P3SEL : Nat
  P3DIR : Nat
  P4OUT : Nat
  P4SEL : Nat
  P4DIR : Nat
  UCA0CTL0 : Nat
  UCA0CTL1 : Nat
  UCA0BR0 : Nat
  UCA0BR1 : Nat
  UCA0MCTL : Nat
  UCA0IE : Nat
  UCA0TXBUF : Nat
  bytes_to_read : Nat
  rx_buffer_ptr : Nat
  bytes_to_write : Nat
  tx_buffer_ptr : Nat
  rx_done_handler : FnPtr
  tx_done_handler : FnPtr
  cts_irq_handler : FnPtr
  mem : Nat → Nat
  log : List Event

/-- State at program start: the statics carry their initialisers
(`bytes_to_read = 0`, handlers `dummy_handler`), registers and memory are zero. -/
def reset_state : State where
  P2OUT := 0
  P2SEL := 0
  P2DIR := 0
  P2IFG := 0
  P2IV := 0
  P2IES := 0
  P2IE := 0
  P3OUT := 0
  P3SEL := 0
  P3DIR := 0
  P4OUT := 0
  P4SEL := 0
  P4DIR := 0
  UCA0CTL0 := 0
  UCA0CTL1 := 0
  UCA0BR0 := 0
  UCA0BR1 := 0
  UCA0MCTL := 0
  UCA0IE := 0
  UCA0TXBUF := 0
  bytes_to_read := 0
  rx_buffer_ptr := 0
  bytes_to_write := 0
  tx_buffer_ptr := 0
  rx_done_handler := FnPtr.dummy_handler
  tx_done_handler := FnPtr.dummy_handler
  cts_irq_handler := FnPtr.dummy_handler
  mem := fun _ => 0
  log := []

/-- Append one action to the log. -/
def emit (e : Event) (s : State) : State :=
  { s with log := s.log ++ [e] }

/-- Write `v` to register `r`. -/
def wr (r : Reg) (v : Nat) (s : State) : State :=
  match r with
  | Reg.P2OUT => emit (Event.write r v) { s with P2OUT := v }
  | Reg.P2SEL => emit (Event.write r v) { s with P2SEL := v }
  | Reg.P2DIR => emit (Event.write r v) { s with P2DIR := v }
  | Reg.P2IFG => emit (Event.write r v) { s with P2IFG := v }
  | Reg.P2IV => emit (Event.write r v) { s with P2IV := v }
  | Reg.P2IES => emit (Event.write r v) { s with P2IES := v }
  | Reg.P2IE => emit (Event.write r v) { s with P2IE := v }
  | Reg.P3OUT => emit (Event.write r v) { s with P3OUT := v }
  | Reg.P3SEL => emit (Event.write r v) { s with P3SEL := v }
  | Reg.P3DIR => emit (Event.write r v) { s with P3DIR := v }
  | Reg.P4OUT => emit (Event.write r v) { s with P4OUT := v }
  | Reg.P4SEL => emit (Event.write r v) { s with P4SEL := v }
  | Reg.P4DIR => emit (Event.write r v) { s with P4DIR := v }
  | Reg.UCA0CTL0 => emit (Event.write r v) { s with UCA0CTL0 := v }
  | Reg.UCA0CTL1 => emit (Event.write r v) { s with UCA0CTL1 := v }
  | Reg.UCA0BR0 => emit (Event.write r v) { s with UCA0BR0 := v }
  | Reg.UCA0BR1 => emit (Event.write r v) { s with UCA0BR1 := v }
  | Reg.UCA0MCTL => emit (Event.write r v) { s with UCA0MCTL := v }
  | Reg.UCA0IE => emit (Event.write r v) { s with UCA0IE := v }
  | Reg.UCA0TXBUF => emit (Event.write r v) { s with UCA0TXBUF := v }

/-- Load of a `uint8_t` from address `a`. -/
def load8 (m : Nat → Nat) (a : Nat) : Nat := m a % 256

/-- Store of a `uint8_t` through a pointer: `*p = v`. -/
def store8 (p v : Nat) (s : State) : State :=
  emit (Event.store p (v % 256))
    { s with mem := fun a => if a = p then v % 256 else s.mem a }

/-- Call through a handler pointer: `(*f)()`. -/
def invoke (f : FnPtr) (s : State) : State :=
  emit (Event.call f
    { bytes_to_read := s.bytes_to_read, bytes_to_write := s.bytes_to_write,
      UCA0IE := s.UCA0IE, P2OUT := s.P2OUT }) s

/-! ## The driver -/

/-- Body of `hal_uart_dma_set_baud`: the state after the call and the result. -/
def hal_uart_dma_set_baud (baud : Nat) (s : State) : Int × State :=
  let s := wr Reg.UCA0CTL1 (or8 s.UCA0CTL1 UCSWRST) s
  let rs : Int × State :=
    if baud = 4000000 then
      (0, wr Reg.UCA0MCTL (0 <<< 1) (wr Reg.UCA0BR1 0 (wr Reg.UCA0BR0 2 s)))
    else if baud = 3000000 then
      (0, wr Reg.UCA0MCTL (3 <<< 1) (wr Reg.UCA0BR1 0 (wr Reg.UCA0BR0 3 s)))
    else if baud = 2400000 then
      (0, wr Reg.UCA0MCTL (5 <<< 1) (wr Reg.UCA0BR1 0 (wr Reg.UCA0BR0 6 s)))
    else if baud = 2000000 then
      (0, wr Reg.UCA0MCTL (0 <<< 1) (wr Reg.UCA0BR1 0 (wr Reg.UCA0BR0 8 s)))
    else if baud = 1000000 then
      (0, wr Reg.UCA0MCTL (0 <<< 1) (wr Reg.UCA0BR1 0 (wr Reg.UCA0BR0 16 s)))
    else if baud = 921600 then
      (0, wr Reg.UCA0MCTL (7 <<< 1) (wr Reg.UCA0BR1 0 (wr Reg.UCA0BR0 17 s)))
    else if baud = 115200 then
      (0, wr Reg.UCA0MCTL (7 <<< 1) (wr Reg.UCA0BR1 0 (wr Reg.UCA0BR0 138 s)))
    else if baud = 57600 then
      (0, wr Reg.UCA0MCTL (7 <<< 1) (wr Reg.UCA0BR1 1 (wr Reg.UCA0BR0 21 s)))
    else
      (-1, s)
  (rs.1, wr Reg.UCA0CTL1 (andnot8 rs.2.UCA0CTL1 UCSWRST) rs.2)

/-- Body of `hal_uart_dma_init`. -/
def hal_uart_dma_init (s : State) : State :=
  let s := wr Reg.P3SEL (or8 s.P3SEL (BT_PIN_RXD + BT_PIN_TXD)) s
  let s := wr Reg.P3DIR (or8 s.P3DIR BT_PIN_TXD) s
  let s := wr Reg.P3DIR (andnot8 s.P3DIR BT_PIN_RXD) s
  let s := wr Reg.P2SEL (andnot8 s.P2SEL RTS_PIN) s
  let s := wr Reg.P2DIR (or8 s.P2DIR RTS_PIN) s
  let s := wr Reg.P2OUT (or8 s.P2OUT RTS_PIN) s
  let s := wr Reg.P2SEL (andnot8 s.P2SEL CTS_PIN) s
  let s := wr Reg.P2DIR (andnot8 s.P2DIR CTS_PIN) s
  let s := wr Reg.P4SEL (andnot8 s.P4SEL N_SHUTDOWN_PIN) s
  let s := wr Reg.P4DIR (or8 s.P4DIR N_SHUTDOWN_PIN) s
  let s := wr Reg.P4OUT (or8 s.P4OUT N_SHUTDOWN_PIN) s
  let s := emit Event.waitAboutOneSecond s
  let s := wr Reg.UCA0CTL1 (or8 s.UCA0CTL1 UCSWRST) s
  let s := wr Reg.UCA0CTL0 UCMODE_0 s
  let s := wr Reg.UCA0CTL0 (andnot8 s.UCA0CTL0 UC7BIT) s
  let s := wr Reg.UCA0CTL1 (or8 s.UCA0CTL1 UCSSEL_2) s
  let s := wr Reg.UCA0CTL1 (andnot8 s.UCA0CTL1 UCSWRST) s
  (hal_uart_dma_set_baud 115200 s).2

/-- Body of `hal_uart_dma_set_block_received`. -/
def hal_uart_dma_set_block_received (the_block_handler : FnPtr) (s : State) : State :=
  { s with rx_done_handler := the_block_handler }

/-- Body of `hal_uart_dma_set_block_sent`. -/
def hal_uart_dma_set_block_sent (the_block_handler : FnPtr) (s : State) : State :=
  { s with tx_done_handler := the_block_handler }

/-- Body of `hal_uart_dma_set_csr_irq_handler`; `HAVE_CTS_IRQ` tells whether the
preprocessor symbol of that name is defined. -/
def hal_uart_dma_set_csr_irq_handler (HAVE_CTS_IRQ : Bool) (the_irq_handler : FnPtr)
    (s : State) : State :=
  if HAVE_CTS_IRQ then
    if the_irq_handler ≠ FnPtr.null then
      let s := wr Reg.P2IFG 0 s
      let s := wr Reg.P2IV 0 s
      let s := wr Reg.P2IES (andnot8 s.P2IES CTS_PIN) s
      let s := wr Reg.P2IE (or8 s.P2IE CTS_PIN) s
      { s with cts_irq_handler := the_irq_handler }
    else
      let s := wr Reg.P2IE (andnot8 s.P2IE CTS_PIN) s
      { s with cts_irq_handler := FnPtr.dummy_handler }
  else s

/-- Body of `hal_uart_dma_shutdown`. -/
def hal_uart_dma_shutdown (s : State) : State :=
  let s := wr Reg.UCA0IE (andnot8 s.UCA0IE (UCRXIE ||| UCTXIE)) s
  let s := wr Reg.UCA0CTL1 UCSWRST s
  let s := wr Reg.P3SEL (andnot8 s.P3SEL (BT_PIN_RXD + BT_PIN_TXD)) s
  let s := wr Reg.P3DIR (or8 s.P3DIR BT_PIN_TXD) s
  let s := wr Reg.P3DIR (or8 s.P3DIR BT_PIN_RXD) s
  wr Reg.P3OUT (andnot8 s.P3OUT (BT_PIN_TXD + BT_PIN_RXD)) s

/-- Body of `hal_uart_dma_send_block`; `len` is a `uint16_t`. -/
def hal_uart_dma_send_block (data len : Nat) (s : State) : State :=
  let s := wr Reg.UCA0IE (andnot8 s.UCA0IE UCTXIE) s
  let s := { s with tx_buffer_ptr := data }
  let s := { s with bytes_to_write := len % 65536 }
  wr Reg.UCA0IE (or8 s.UCA0IE UCTXIE) s

/-- Body of `hal_uart_dma_enable_rx`: RTS low. -/
def hal_uart_dma_enable_rx (s : State) : State :=
  wr Reg.P2OUT (andnot8 s.P2OUT RTS_PIN) s

/-- Body of `hal_uart_dma_disable_rx`: RTS high. -/
def hal_uart_dma_disable_rx (s : State) : State :=
  wr Reg.P2OUT (or8 s.P2OUT RTS_PIN) s

/-- Body of `hal_uart_dma_receive_block`; `len` is a `uint16_t` and `UCAIFG` is
the value read from the interrupt flag register. -/
def hal_uart_dma_receive_block (buffer len : Nat) (UCAIFG : Nat) (s : State) : State :=
  let s := wr Reg.UCA0IE (andnot8 s.UCA0IE UCRXIE) s
  let s := { s with rx_buffer_ptr := buffer }
  let s := { s with bytes_to_read := len % 65536 }
  let pending := UCAIFG &&& UCRXIFG
  let s := wr Reg.UCA0IE (or8 s.UCA0IE UCRXIE) s
  if pending = 0 then hal_uart_dma_enable_rx s else s

/-- Body of `usbRxTxISR`; `UCA0IV` and `UCA0RXBUF` are the values read from the
interrupt vector register and the receive buffer register. -/
def usbRxTxISR (UCA0IV UCA0RXBUF : Nat) (s : State) : State :=
  if UCA0IV = 2 then
    if s.bytes_to_read = 0 then
      let s := hal_uart_dma_disable_rx s
      wr Reg.UCA0IE (andnot8 s.UCA0IE UCRXIE) s
    else
      let s := store8 s.rx_buffer_ptr UCA0RXBUF s
      let s := { s with rx_buffer_ptr := s.rx_buffer_ptr + 1 }
      let s := { s with bytes_to_read := dec16 s.bytes_to_read }
      if s.bytes_to_read > 0 then
        hal_uart_dma_enable_rx s
      else
        let s := wr Reg.P2OUT (or8 s.P2OUT RTS_PIN) s
        let s := wr Reg.UCA0IE (andnot8 s.UCA0IE UCRXIE) s
        let s := invoke s.rx_done_handler s
        emit (Event.bic_SR_register_on_exit LPM0_bits) s
  else if UCA0IV = 4 then
    if s.bytes_to_write = 0 then
      wr Reg.UCA0IE (andnot8 s.UCA0IE UCTXIE) s
    else
      let s := wr Reg.UCA0TXBUF (load8 s.mem s.tx_buffer_ptr) s
      let s := { s with tx_buffer_ptr := s.tx_buffer_ptr + 1 }
      let s := { s with bytes_to_write := dec16 s.bytes_to_write }
      if s.bytes_to_write > 0 then
        s
      else
        let s := wr Reg.UCA0IE (andnot8 s.UCA0IE UCTXIE) s
        let s := invoke s.tx_done_handler s
        emit (Event.bic_SR_register_on_exit LPM0_bits) s
  else s

/-- Body of `ctsISR` (compiled only with `HAVE_CTS_IRQ`). -/
def ctsISR (s : State) : State :=
  let s := wr Reg.P2IV 0 s
  invoke s.cts_irq_handler s

/-! ## Observations -/

/-- The rates of the `switch` in `hal_uart_dma_set_baud`. -/
def supported_rates : List Nat :=
  [57600, 115200, 921600, 1000000, 2000000, 2400000, 3000000, 4000000]

/-- The 16-bit baud divisor held in `UCA0BR0` (low byte) and `UCA0BR1` (high byte). -/
def baud_divisor (s : State) : Nat := s.UCA0BR0 + 256 * s.UCA0BR1

/-- The second modulation stage select: `UCA0MCTL >> 1`. -/
def baud_modulation (s : State) : Nat := s.UCA0MCTL >>> 1

/-- RTS (bit 3 of `P2OUT`) is high: the peer must stop sending. -/
def rts_stop (s : State) : Prop := s.P2OUT.testBit 3 = true

/-- RTS (bit 3 of `P2OUT`) is low: the peer may send. -/
def rts_go (s : State) : Prop := s.P2OUT.testBit 3 = false

/-- The receive interrupt enable bit (bit 0 of `UCA0IE`). -/
def rx_irq_enabled (s : State) : Prop := s.UCA0IE.testBit 0 = true

/-- The transmit interrupt enable bit (bit 1 of `UCA0IE`). -/
def tx_irq_enabled (s : State) : Prop := s.UCA0IE.testBit 1 = true

instance (s : State) : Decidable (rts_stop s) := by unfold rts_stop; infer_instance
instance (s : State) : Decidable (rts_go s) := by unfold rts_go; infer_instance
instance (s : State) : Decidable (rx_irq_enabled s) := by unfold rx_irq_enabled; infer_instance
instance (s : State) : Decidable (tx_irq_enabled s) := by unfold tx_irq_enabled; infer_instance

/-- The handler call recorded by an action, if it is one. -/
def Event.asCall : Event → Option (FnPtr × Snapshot)
  | Event.call f seen => some (f, seen)
  | _ => none

/-- The byte written to `UCA0TXBUF` by an action, if it is such a write. -/
def Event.asTx : Event → Option Nat
  | Event.write Reg.UCA0TXBUF v => some v
  | _ => none

/-- The handler calls of a log, in order. -/
def calls (l : List Event) : List (FnPtr × Snapshot) := l.filterMap Event.asCall

/-- The bytes written to `UCA0TXBUF` in a log, in order. -/
def tx_bytes (l : List Event) : List Nat := l.filterMap Event.asTx

/-- A run of RX interrupts (`UCA0IV = 2`), one per received byte. -/
def rx_interrupts (bs : List Nat) (s : State) : State :=
  bs.foldl (fun t b => usbRxTxISR 2 b t) s

/-- A run of TX interrupts (`UCA0IV = 4`); `rs` are the contents of the receive
buffer register at each of them, which this path does not read. -/
def tx_interrupts (rs : List Nat) (s : State) : State :=
  rs.foldl (fun t r => usbRxTxISR 4 r t) s

/-- Interrupts served one after the other; each entry is the pair of values
read from `UCA0IV` and `UCA0RXBUF` by that run of `usbRxTxISR`. -/
def serve (irqs : List (Nat × Nat)) (s : State) : State :=
  irqs.foldl (fun t e => usbRxTxISR e.1 e.2 t) s

/-- Lines 283-292 of `hal_uart_dma_receive_block`: from the entry of the
function up to and including the write that sets `UCRXIE`. -/
def receive_block_until_enabled (buffer len : Nat) (s : State) : State :=
  let s := wr Reg.UCA0IE (andnot8 s.UCA0IE UCRXIE) s
  let s := { s with rx_buffer_ptr := buffer }
  let s := { s with bytes_to_read := len % 65536 }
  wr Reg.UCA0IE (or8 s.UCA0IE UCRXIE) s

/-- Lines 294-297 of `hal_uart_dma_receive_block`: the rest of the function,
with `UCAIFG` the flag register value sampled at line 289. -/
def receive_block_after_enabled (UCAIFG : Nat) (s : State) : State :=
  if UCAIFG &&& UCRXIFG = 0 then hal_uart_dma_enable_rx s else s

/-- Execution of `hal_uart_dma_receive_block` in which the interrupts `irqs` are
served inside the call, right after the write that sets `UCRXIE` (the point
where, by the comment at line 291, the ISR is triggered if a byte is pending).
Nothing masks the RX interrupt between that write and the end of the function. -/
def hal_uart_dma_receive_block_preempted (buffer len UCAIFG : Nat)
    (irqs : List (Nat × Nat)) (s : State) : State :=
  receive_block_after_enabled UCAIFG (serve irqs (receive_block_until_enabled buffer len s))

/-- The state `s` with the bytes `bytes` in memory from address `p` on. -/
def with_bytes (p : Nat) (bytes : List Nat) (s : State) : State :=
  { s with mem := fun a =>
      if p ≤ a ∧ a < p + bytes.length then bytes.getD (a - p) 0 else s.mem a }

/-- Operations of the driver an application or the hardware can trigger after
`hal_uart_dma_init`; `receive_block_preempted` is a call of
`hal_uart_dma_receive_block` with interrupts served inside it. -/
inductive Op where
  | set_baud (baud : Nat)
  | set_block_received (the_block_handler : FnPtr)
  | set_block_sent (the_block_handler : FnPtr)
  | set_csr_irq_handler (the_irq_handler : FnPtr)
  | send_block (data len : Nat)
  | receive_block (buffer len UCAIFG : Nat)
  | receive_block_preempted (buffer len UCAIFG : Nat) (irqs : List (Nat × Nat))
  | shutdown
  | interrupt (UCA0IV UCA0RXBUF : Nat)
  deriving DecidableEq, Repr

/-- Arguments fit their C types (`uint16_t` lengths) and a receive is armed
with a length greater than 0. -/
def Op.admissible : Op → Prop
  | Op.send_block _ len => len < 65536
  | Op.receive_block _ len _ => 0 < len ∧ len < 65536
  | Op.receive_block_preempted _ len _ _ => 0 < len ∧ len < 65536
  | _ => True

instance (o : Op) : Decidable o.admissible := by
  cases o <;> unfold Op.admissible <;> infer_instance

/-- No interrupt is served inside the operation. -/
def Op.unpreempted : Op → Prop
  | Op.receive_block_preempted _ _ _ irqs => irqs = []
  | _ => True

instance (o : Op) : Decidable o.unpreempted := by
  cases o <;> unfold Op.unpreempted <;> infer_instance

/-- Effect of one operation; `HAVE_CTS_IRQ` is the build configuration. -/
def Op.exec (HAVE_CTS_IRQ : Bool) : Op → State → State
  | Op.set_baud baud, s => (hal_uart_dma_set_baud baud s).2
  | Op.set_block_received h, s => hal_uart_dma_set_block_received h s
  | Op.set_block_sent h, s => hal_uart_dma_set_block_sent h s
  | Op.set_csr_irq_handler h, s => hal_uart_dma_set_csr_irq_handler HAVE_CTS_IRQ h s
  | Op.send_block data len, s => hal_uart_dma_send_block data len s
  | Op.receive_block buffer len UCAIFG, s => hal_uart_dma_receive_block buffer len UCAIFG s
  | Op.receive_block_preempted buffer len UCAIFG irqs, s =>
      hal_uart_dma_receive_block_preempted buffer len UCAIFG irqs s
  | Op.shutdown, s => hal_uart_dma_shutdown s
  | Op.interrupt UCA0IV UCA0RXBUF, s => usbRxTxISR UCA0IV UCA0RXBUF s

/-- A sequence of operations.  Calls and interrupts follow one another, and an
`Op.receive_block_preempted` has interrupts served inside the call. -/
def run_ops (HAVE_CTS_IRQ : Bool) (ops : List Op) (s : State) : State :=
  ops.foldl (fun t o => o.exec HAVE_CTS_IRQ t) s

/-- The actions a call appended to the log: those of `after` beyond `before`. -/
def actions_since (before after : State) : List Event :=
  after.log.drop before.log.length

/-- A write to `P2OUT` whose value has the RTS bit clear (RTS driven to go). -/
def is_rts_go_write : Event → Bool
  | Event.write Reg.P2OUT v => !v.testBit 3
  | _ => false

/-- A write to `UCA0IE` whose value has the `UCRXIE` bit set. -/
def is_rxie_set_write : Event → Bool
  | Event.write Reg.UCA0IE v => v.testBit 0
  | _ => false

/-- A run of `k` CTS edge interrupts (`ctsISR`). -/
def cts_interrupts : Nat → State → State
  | 0, s => s
  | k + 1, s => cts_interrupts k (ctsISR s)

/-- The registers, statics and memory of a state, without the log of actions. -/
def State.machine (s : State) : State := { s with log := [] }

/-- The software reset bit `UCSWRST` (bit 0 of `UCA0CTL1`) is set. -/
def swrst_set (s : State) : Prop := s.UCA0CTL1.testBit 0 = true

instance (s : State) : Decidable (swrst_set s) := by unfold swrst_set; infer_instance

/-- The store through a pointer recorded by an action, if it is one. -/
def Event.asStore : Event → Option (Nat × Nat)
  | Event.store addr v => some (addr, v)
  | _ => none

/-- The stores through `rx_buffer_ptr` of a log (address, byte), in order. -/
def stores (l : List Event) : List (Nat × Nat) := l.filterMap Event.asStore

/-! ## Bit-level facts -/

theorem testBit_or8_same (x : Nat) : (or8 x BIT3).testBit 3 = true := by
  unfold or8
  rw [show 256 = 2 ^ 8 from rfl, Nat.testBit_mod_two_pow, Nat.testBit_lor]
  have h : Nat.testBit BIT3 3 = true := by decide
  simp [h]

theorem testBit_andnot8_same (x : Nat) : (andnot8 x BIT3).testBit 3 = false := by
  unfold andnot8
  rw [show 256 = 2 ^ 8 from rfl, Nat.testBit_mod_two_pow, Nat.testBit_land]
  have h : Nat.testBit (not16 BIT3) 3 = false := by decide
  simp [h]

theorem testBit_or8_rxie (x : Nat) : (or8 x UCRXIE).testBit 0 = true := by
  unfold or8
  rw [show 256 = 2 ^ 8 from rfl, Nat.testBit_mod_two_pow, Nat.testBit_lor]
  have h : Nat.testBit UCRXIE 0 = true := by decide
  simp [h]

theorem testBit_andnot8_rxie (x : Nat) : (andnot8 x UCRXIE).testBit 0 = false := by
  unfold andnot8
  rw [show 256 = 2 ^ 8 from rfl, Nat.testBit_mod_two_pow, Nat.testBit_land]
  have h : Nat.testBit (not16 UCRXIE) 0 = false := by decide
  simp [h]

theorem testBit_or8_txie (x : Nat) : (or8 x UCTXIE).testBit 1 = true := by
  unfold or8
  rw [show 256 = 2 ^ 8 from rfl, Nat.testBit_mod_two_pow, Nat.testBit_lor]
  have h : Nat.testBit UCTXIE 1 = true := by decide
  simp [h]

theorem testBit_andnot8_txie (x : Nat) : (andnot8 x UCTXIE).testBit 1 = false := by
  unfold andnot8
  rw [show 256 = 2 ^ 8 from rfl, Nat.testBit_mod_two_pow, Nat.testBit_land]
  have h : Nat.testBit (not16 UCTXIE) 1 = false := by decide
  simp [h]

theorem dec16_pos (x : Nat) (h0 : 0 < x) (h1 : x < 65536) : dec16 x = x - 1 := by
  unfold dec16; omega

/-! ## Baud rate configuration -/

/-- C1: `hal_uart_dma_set_baud b` returns 0 exactly when `b` is one of the eight
rates of the switch, and returns -1 for every other `b` (every `uint32_t` value
is a natural number, so the statement covers all 32-bit rates). -/
theorem set_baud_result (b : Nat) (s : State) :
    ((hal_uart_dma_set_baud b s).1 = 0 ↔ b ∈ supported_rates) ∧
    (b ∉ supported_rates → (hal_uart_dma_set_baud b s).1 = -1) := by
  simp only [hal_uart_dma_set_baud, supported_rates]
  split_ifs <;> simp_all

/-- Witness for C1: 9600 baud is not in the switch and is rejected with -1. -/
theorem set_baud_result_witness :
    9600 ∉ supported_rates ∧ (hal_uart_dma_set_baud 9600 reset_state).1 = -1 :=
  ⟨by decide, (set_baud_result 9600 reset_state).2 (by decide)⟩

theorem rx_step_more (b : Nat) (s : State) (h1 : 1 < s.bytes_to_read)
    (h2 : s.bytes_to_read < 65536) :
    usbRxTxISR 2 b s =
      { s with
        mem := fun a => if a = s.rx_buffer_ptr then b % 256 else s.mem a
        rx_buffer_ptr := s.rx_buffer_ptr + 1
        bytes_to_read := s.bytes_to_read - 1
        P2OUT := andnot8 s.P2OUT RTS_PIN
        log := s.log ++ [Event.store s.rx_buffer_ptr (b % 256),
                         Event.write Reg.P2OUT (andnot8 s.P2OUT RTS_PIN)] } := by
  have hd : dec16 s.bytes_to_read = s.bytes_to_read - 1 := dec16_pos _ (by omega) h2
  have h0 : s.bytes_to_read ≠ 0 := by omega
  have h3 : 0 < s.bytes_to_read - 1 := by omega
  simp [usbRxTxISR, h0, hd, h3, store8, emit, hal_uart_dma_enable_rx, wr]

theorem rx_step_last (b : Nat) (s : State) (h1 : s.bytes_to_read = 1) :
    usbRxTxISR 2 b s =
      { s with
        mem := fun a => if a = s.rx_buffer_ptr then b % 256 else s.mem a
        rx_buffer_ptr := s.rx_buffer_ptr + 1
        bytes_to_read := 0
        P2OUT := or8 s.P2OUT RTS_PIN
        UCA0IE := andnot8 s.UCA0IE UCRXIE
        log := s.log ++ [Event.store s.rx_buffer_ptr (b % 256),
                         Event.write Reg.P2OUT (or8 s.P2OUT RTS_PIN),
                         Event.write Reg.UCA0IE (andnot8 s.UCA0IE UCRXIE),
                         Event.call s.rx_done_handler
                           { bytes_to_read := 0, bytes_to_write := s.bytes_to_write,
                             UCA0IE := andnot8 s.UCA0IE UCRXIE,
                             P2OUT := or8 s.P2OUT RTS_PIN },
                         Event.bic_SR_register_on_exit LPM0_bits] } := by
  have hd : dec16 1 = 0 := by decide
  simp [usbRxTxISR, h1, hd, store8, emit, invoke, wr]

theorem calls_append (l1 l2 : List Event) : calls (l1 ++ l2) = calls l1 ++ calls l2 := by
  simp [calls]

theorem rx_more_facts (b : Nat) (s : State) (h1 : 1 < s.bytes_to_read)
    (h2 : s.bytes_to_read < 65536) :
    (usbRxTxISR 2 b s).bytes_to_read = s.bytes_to_read - 1 ∧
    (usbRxTxISR 2 b s).rx_buffer_ptr = s.rx_buffer_ptr + 1 ∧
    (usbRxTxISR 2 b s).rx_done_handler = s.rx_done_handler ∧
    (∀ a, (usbRxTxISR 2 b s).mem a = if a = s.rx_buffer_ptr then b % 256 else s.mem a) ∧
    calls (usbRxTxISR 2 b s).log = calls s.log ∧
    (usbRxTxISR 2 b s).UCA0IE = s.UCA0IE := by
  rw [rx_step_more b s h1 h2]
  simp [calls_append, calls, Event.asCall]

theorem rx_last_facts (b : Nat) (s : State) (h1 : s.bytes_to_read = 1) :
    (usbRxTxISR 2 b s).bytes_to_read = 0 ∧
    (usbRxTxISR 2 b s).rx_buffer_ptr = s.rx_buffer_ptr + 1 ∧
    (usbRxTxISR 2 b s).rx_done_handler = s.rx_done_handler ∧
    (∀ a, (usbRxTxISR 2 b s).mem a = if a = s.rx_buffer_ptr then b % 256 else s.mem a) ∧
    calls (usbRxTxISR 2 b s).log = calls s.log ++
      [(s.rx_done_handler,
        { bytes_to_read := 0, bytes_to_write := s.bytes_to_write,
          UCA0IE := andnot8 s.UCA0IE UCRXIE, P2OUT := or8 s.P2OUT RTS_PIN })] ∧
    (usbRxTxISR 2 b s).UCA0IE = andnot8 s.UCA0IE UCRXIE ∧
    (usbRxTxISR 2 b s).P2OUT = or8 s.P2OUT RTS_PIN := by
  rw [rx_step_last b s h1]
  simp [calls_append, calls, Event.asCall]

theorem rx_run (bs : List Nat) : ∀ s : State,
    bs.length ≤ s.bytes_to_read → s.bytes_to_read < 65536 →
    (rx_interrupts bs s).bytes_to_read = s.bytes_to_read - bs.length ∧
    (rx_interrupts bs s).rx_buffer_ptr = s.rx_buffer_ptr + bs.length ∧
    (rx_interrupts bs s).rx_done_handler = s.rx_done_handler ∧
    (∀ a, (rx_interrupts bs s).mem a =
        if s.rx_buffer_ptr ≤ a ∧ a < s.rx_buffer_ptr + bs.length
        then bs.getD (a - s.rx_buffer_ptr) 0 % 256 else s.mem a) ∧
    (bs.length < s.bytes_to_read →
        calls (rx_interrupts bs s).log = calls s.log ∧
        (rx_interrupts bs s).UCA0IE = s.UCA0IE) ∧
    (0 < bs.length → bs.length = s.bytes_to_read →
        ∃ seen, calls (rx_interrupts bs s).log = calls s.log ++ [(s.rx_done_handler, seen)] ∧
          seen.bytes_to_read = 0 ∧ seen.UCA0IE.testBit 0 = false ∧
          seen.P2OUT.testBit 3 = true ∧
          (rx_interrupts bs s).UCA0IE.testBit 0 = false ∧
          (rx_interrupts bs s).P2OUT.testBit 3 = true) := by
  induction bs with
  | nil =>
    intro s _ _
    refine ⟨rfl, rfl, rfl, ?_, fun _ => ⟨rfl, rfl⟩, ?_⟩
    · intro a
      have : ¬ (s.rx_buffer_ptr ≤ a ∧ a < s.rx_buffer_ptr + ([] : List Nat).length) := by
        simp
      rw [if_neg this]; rfl
    · intro h; simp at h
  | cons b rest ih =>
    intro s hle hlt
    have hfold : rx_interrupts (b :: rest) s = rx_interrupts rest (usbRxTxISR 2 b s) := rfl
    rw [hfold]
    simp only [List.length_cons] at hle ⊢
    by_cases h1 : s.bytes_to_read = 1
    · -- the block completes with this byte
      have hrest : rest = [] := by
        apply List.eq_nil_of_length_eq_zero; omega
      subst hrest
      obtain ⟨f1, f2, f3, f4, f5, f6, f7⟩ := rx_last_facts b s h1
      have hnil : ∀ t : State, rx_interrupts [] t = t := fun _ => rfl
      rw [hnil]
      refine ⟨by rw [f1, h1]; rfl, f2, f3, ?_, ?_, ?_⟩
      · intro a
        rw [f4 a]
        by_cases ha : a = s.rx_buffer_ptr
        · subst ha; simp
        · have : ¬ (s.rx_buffer_ptr ≤ a ∧ a < s.rx_buffer_ptr + (([] : List Nat).length + 1)) := by
            simp; omega
          rw [if_neg ha, if_neg this]
      · intro h; simp at h; omega
      · intro _ _
        refine ⟨_, f5, rfl, ?_, ?_, ?_, ?_⟩
        · exact testBit_andnot8_rxie _
        · exact testBit_or8_same _
        · rw [f6]; exact testBit_andnot8_rxie _
        · rw [f7]; exact testBit_or8_same _
    · have h2 : 1 < s.bytes_to_read := by omega
      obtain ⟨f1, f2, f3, f4, f5, f6⟩ := rx_more_facts b s h2 hlt
      generalize usbRxTxISR 2 b s = t at f1 f2 f3 f4 f5 f6 ⊢
      have hA : rest.length ≤ t.bytes_to_read := by omega
      have hB : t.bytes_to_read < 65536 := by omega
      obtain ⟨i1, i2, i3, i4, i5, i6⟩ := ih t hA hB
      refine ⟨by rw [i1, f1]; omega, by rw [i2, f2]; omega, by rw [i3, f3], ?_, ?_, ?_⟩
      · intro a
        rw [i4 a, f4 a, f2]
        by_cases ha : a = s.rx_buffer_ptr
        · subst ha; simp
        · by_cases hin : s.rx_buffer_ptr + 1 ≤ a ∧ a < s.rx_buffer_ptr + 1 + rest.length
          · have hin2 : s.rx_buffer_ptr ≤ a ∧ a < s.rx_buffer_ptr + (rest.length + 1) := by omega
            have hidx : a - s.rx_buffer_ptr = (a - (s.rx_buffer_ptr + 1)) + 1 := by omega
            rw [if_pos hin, if_pos hin2, hidx, List.getD_cons_succ]
          · have hin2 : ¬ (s.rx_buffer_ptr ≤ a ∧ a < s.rx_buffer_ptr + (rest.length + 1)) := by
              omega
            rw [if_neg hin, if_neg hin2, if_neg ha]
      · intro h
        have hC : rest.length < t.bytes_to_read := by omega
        obtain ⟨c, e⟩ := i5 hC
        exact ⟨by rw [c, f5], by rw [e, f6]⟩
      · intro _ h
        have hD : 0 < rest.length := by omega
        have hE : rest.length = t.bytes_to_read := by omega
        obtain ⟨seen, c, r⟩ := i6 hD hE
        exact ⟨seen, by rw [c, f5, f3], r⟩

/-! ## Transmit path -/

theorem tx_bytes_append (l1 l2 : List Event) :
    tx_bytes (l1 ++ l2) = tx_bytes l1 ++ tx_bytes l2 := by
  simp [tx_bytes]

theorem tx_step_more (r : Nat) (s : State) (h1 : 1 < s.bytes_to_write)
    (h2 : s.bytes_to_write < 65536) :
    usbRxTxISR 4 r s =
      { s with
        UCA0TXBUF := load8 s.mem s.tx_buffer_ptr
        tx_buffer_ptr := s.tx_buffer_ptr + 1
        bytes_to_write := s.bytes_to_write - 1
        log := s.log ++ [Event.write Reg.UCA0TXBUF (load8 s.mem s.tx_buffer_ptr)] } := by
  have hd : dec16 s.bytes_to_write = s.bytes_to_write - 1 := dec16_pos _ (by omega) h2
  have h0 : s.bytes_to_write ≠ 0 := by omega
  have h3 : 0 < s.bytes_to_write - 1 := by omega
  simp [usbRxTxISR, h0, hd, h3, emit, wr]

theorem tx_step_last (r : Nat) (s : State) (h1 : s.bytes_to_write = 1) :
    usbRxTxISR 4 r s =
      { s with
        UCA0TXBUF := load8 s.mem s.tx_buffer_ptr
        tx_buffer_ptr := s.tx_buffer_ptr + 1
        bytes_to_write := 0
        UCA0IE := andnot8 s.UCA0IE UCTXIE
        log := s.log ++ [Event.write Reg.UCA0TXBUF (load8 s.mem s.tx_buffer_ptr),
                         Event.write Reg.UCA0IE (andnot8 s.UCA0IE UCTXIE),
                         Event.call s.tx_done_handler
                           { bytes_to_read := s.bytes_to_read, bytes_to_write := 0,
                             UCA0IE := andnot8 s.UCA0IE UCTXIE, P2OUT := s.P2OUT },
                         Event.bic_SR_register_on_exit LPM0_bits] } := by
  have hd : dec16 1 = 0 := by decide
  simp [usbRxTxISR, h1, hd, emit, invoke, wr]

theorem tx_more_facts (r : Nat) (s : State) (h1 : 1 < s.bytes_to_write)
    (h2 : s.bytes_to_write < 65536) :
    (usbRxTxISR 4 r s).bytes_to_write = s.bytes_to_write - 1 ∧
    (usbRxTxISR 4 r s).tx_buffer_ptr = s.tx_buffer_ptr + 1 ∧
    (usbRxTxISR 4 r s).tx_done_handler = s.tx_done_handler ∧
    (usbRxTxISR 4 r s).mem = s.mem ∧
    tx_bytes (usbRxTxISR 4 r s).log = tx_bytes s.log ++ [load8 s.mem s.tx_buffer_ptr] ∧
    calls (usbRxTxISR 4 r s).log = calls s.log ∧
    (usbRxTxISR 4 r s).UCA0IE = s.UCA0IE := by
  rw [tx_step_more r s h1 h2]
  simp [calls_append, calls, Event.asCall, tx_bytes_append, tx_bytes, Event.asTx]

theorem tx_last_facts (r : Nat) (s : State) (h1 : s.bytes_to_write = 1) :
    (usbRxTxISR 4 r s).bytes_to_write = 0 ∧
    (usbRxTxISR 4 r s).tx_buffer_ptr = s.tx_buffer_ptr + 1 ∧
    (usbRxTxISR 4 r s).tx_done_handler = s.tx_done_handler ∧
    (usbRxTxISR 4 r s).mem = s.mem ∧
    tx_bytes (usbRxTxISR 4 r s).log = tx_bytes s.log ++ [load8 s.mem s.tx_buffer_ptr] ∧
    calls (usbRxTxISR 4 r s).log = calls s.log ++
      [(s.tx_done_handler,
        { bytes_to_read := s.bytes_to_read, bytes_to_write := 0,
          UCA0IE := andnot8 s.UCA0IE UCTXIE, P2OUT := s.P2OUT })] ∧
    (usbRxTxISR 4 r s).UCA0IE = andnot8 s.UCA0IE UCTXIE := by
  rw [tx_step_last r s h1]
  simp [calls_append, calls, Event.asCall, tx_bytes_append, tx_bytes, Event.asTx]

theorem range_succ_map_shift (f : Nat → Nat) (n : Nat) :
    (List.range (n + 1)).map f = f 0 :: (List.range n).map (fun i => f (i + 1)) := by
  rw [List.range_succ_eq_map, List.map_cons, List.map_map]
  rfl

theorem tx_run (rs : List Nat) : ∀ s : State,
    rs.length ≤ s.bytes_to_write → s.bytes_to_write < 65536 →
    (tx_interrupts rs s).bytes_to_write = s.bytes_to_write - rs.length ∧
    (tx_interrupts rs s).tx_buffer_ptr = s.tx_buffer_ptr + rs.length ∧
    (tx_interrupts rs s).tx_done_handler = s.tx_done_handler ∧
    (tx_interrupts rs s).mem = s.mem ∧
    tx_bytes (tx_interrupts rs s).log = tx_bytes s.log ++
      (List.range rs.length).map (fun i => load8 s.mem (s.tx_buffer_ptr + i)) ∧
    (rs.length < s.bytes_to_write →
        calls (tx_interrupts rs s).log = calls s.log ∧
        (tx_interrupts rs s).UCA0IE = s.UCA0IE) ∧
    (0 < rs.length → rs.length = s.bytes_to_write →
        ∃ seen, calls (tx_interrupts rs s).log = calls s.log ++ [(s.tx_done_handler, seen)] ∧
          seen.bytes_to_write = 0 ∧ seen.UCA0IE.testBit 1 = false ∧
          (tx_interrupts rs s).UCA0IE.testBit 1 = false) := by
  induction rs with
  | nil =>
    intro s _ _
    refine ⟨rfl, rfl, rfl, rfl, ?_, fun _ => ⟨rfl, rfl⟩, ?_⟩
    · simp [tx_interrupts]
    · intro h; simp at h
  | cons r rest ih =>
    intro s hle hlt
    have hfold : tx_interrupts (r :: rest) s = tx_interrupts rest (usbRxTxISR 4 r s) := rfl
    rw [hfold]
    simp only [List.length_cons] at hle ⊢
    by_cases h1 : s.bytes_to_write = 1
    · have hrest : rest = [] := by
        apply List.eq_nil_of_length_eq_zero; omega
      subst hrest
      obtain ⟨f1, f2, f3, f4, f5, f6, f7⟩ := tx_last_facts r s h1
      have hnil : ∀ t : State, tx_interrupts [] t = t := fun _ => rfl
      rw [hnil]
      refine ⟨by rw [f1, h1]; rfl, f2, f3, f4, ?_, ?_, ?_⟩
      · rw [f5]; rfl
      · intro h; simp at h; omega
      · intro _ _
        refine ⟨_, f6, rfl, ?_, ?_⟩
        · exact testBit_andnot8_txie _
        · rw [f7]; exact testBit_andnot8_txie _
    · have h2 : 1 < s.bytes_to_write := by omega
      obtain ⟨f1, f2, f3, f4, f5, f6, f7⟩ := tx_more_facts r s h2 hlt
      generalize usbRxTxISR 4 r s = t at f1 f2 f3 f4 f5 f6 f7 ⊢
      have hA : rest.length ≤ t.bytes_to_write := by omega
      have hB : t.bytes_to_write < 65536 := by omega
      obtain ⟨i1, i2, i3, i4, i5, i6, i7⟩ := ih t hA hB
      refine ⟨by rw [i1, f1]; omega, by rw [i2, f2]; omega, by rw [i3, f3], by rw [i4, f4],
        ?_, ?_, ?_⟩
      · rw [i5, f5, f4, f2, range_succ_map_shift]
        simp [Nat.add_assoc, Nat.add_comm 1]
      · intro h
        have hC : rest.length < t.bytes_to_write := by omega
        obtain ⟨c, e⟩ := i6 hC
        exact ⟨by rw [c, f6], by rw [e, f7]⟩
      · intro _ h
        have hD : 0 < rest.length := by omega
        have hE : rest.length = t.bytes_to_write := by omega
        obtain ⟨seen, c, r⟩ := i7 hD hE
        exact ⟨seen, by rw [c, f6, f3], r⟩

/-! ## Arming a transfer -/

theorem drop_own_log (l1 l2 : List Event) : (l1 ++ l2).drop l1.length = l2 := by
  simp

theorem receive_block_eq (buf len ifg : Nat) (s : State) :
    hal_uart_dma_receive_block buf len ifg s =
      if ifg &&& UCRXIFG = 0 then
        { s with
          rx_buffer_ptr := buf
          bytes_to_read := len % 65536
          UCA0IE := or8 (andnot8 s.UCA0IE UCRXIE) UCRXIE
          P2OUT := andnot8 s.P2OUT RTS_PIN
          log := s.log ++ [Event.write Reg.UCA0IE (andnot8 s.UCA0IE UCRXIE),
                           Event.write Reg.UCA0IE (or8 (andnot8 s.UCA0IE UCRXIE) UCRXIE),
                           Event.write Reg.P2OUT (andnot8 s.P2OUT RTS_PIN)] }
      else
        { s with
          rx_buffer_ptr := buf
          bytes_to_read := len % 65536
          UCA0IE := or8 (andnot8 s.UCA0IE UCRXIE) UCRXIE
          log := s.log ++ [Event.write Reg.UCA0IE (andnot8 s.UCA0IE UCRXIE),
                           Event.write Reg.UCA0IE (or8 (andnot8 s.UCA0IE UCRXIE) UCRXIE)] } := by
  by_cases h : ifg &&& UCRXIFG = 0
  · simp [hal_uart_dma_receive_block, hal_uart_dma_enable_rx, wr, emit, h]
  · simp [hal_uart_dma_receive_block, hal_uart_dma_enable_rx, wr, emit, h]

theorem receive_block_facts (buf len ifg : Nat) (s : State) :
    (hal_uart_dma_receive_block buf len ifg s).bytes_to_read = len % 65536 ∧
    (hal_uart_dma_receive_block buf len ifg s).rx_buffer_ptr = buf ∧
    (hal_uart_dma_receive_block buf len ifg s).rx_done_handler = s.rx_done_handler ∧
    (hal_uart_dma_receive_block buf len ifg s).mem = s.mem ∧
    calls (hal_uart_dma_receive_block buf len ifg s).log = calls s.log ∧
    (hal_uart_dma_receive_block buf len ifg s).UCA0IE = or8 (andnot8 s.UCA0IE UCRXIE) UCRXIE ∧
    (hal_uart_dma_receive_block buf len ifg s).P2OUT =
      (if ifg &&& UCRXIFG = 0 then andnot8 s.P2OUT RTS_PIN else s.P2OUT) := by
  rw [receive_block_eq]
  split <;> simp [calls_append, calls, Event.asCall]

theorem send_block_eq (data len : Nat) (s : State) :
    hal_uart_dma_send_block data len s =
      { s with
        tx_buffer_ptr := data
        bytes_to_write := len % 65536
        UCA0IE := or8 (andnot8 s.UCA0IE UCTXIE) UCTXIE
        log := s.log ++ [Event.write Reg.UCA0IE (andnot8 s.UCA0IE UCTXIE),
                         Event.write Reg.UCA0IE (or8 (andnot8 s.UCA0IE UCTXIE) UCTXIE)] } := by
  simp [hal_uart_dma_send_block, wr, emit]

theorem send_block_facts (data len : Nat) (s : State) :
    (hal_uart_dma_send_block data len s).bytes_to_write = len % 65536 ∧
    (hal_uart_dma_send_block data len s).tx_buffer_ptr = data ∧
    (hal_uart_dma_send_block data len s).tx_done_handler = s.tx_done_handler ∧
    (hal_uart_dma_send_block data len s).mem = s.mem ∧
    calls (hal_uart_dma_send_block data len s).log = calls s.log ∧
    tx_bytes (hal_uart_dma_send_block data len s).log = tx_bytes s.log := by
  rw [send_block_eq]
  simp [calls_append, calls, Event.asCall, tx_bytes_append, tx_bytes, Event.asTx]

/-! ## Receive: completion (C2) -/

/-- C2: for `1 ≤ n ≤ 65535`, after `hal_uart_dma_receive_block buf n` none of the
first `n - 1` RX interrupts calls a handler, the `n`-th calls `rx_done_handler`
(so exactly one call in `n` interrupts); the handler sees `bytes_to_read = 0`,
`UCRXIE` cleared and RTS high, and the same holds after the `n`-th interrupt. -/
theorem rx_block_completes_once (buf n ifg : Nat) (bs : List Nat) (s : State)
    (h1 : 1 ≤ n) (h2 : n ≤ 65535) (hbs : bs.length = n) :
    (∀ k, k < n →
      calls (rx_interrupts (bs.take k) (hal_uart_dma_receive_block buf n ifg s)).log
        = calls s.log) ∧
    (∃ seen,
      calls (rx_interrupts bs (hal_uart_dma_receive_block buf n ifg s)).log
        = calls s.log ++ [(s.rx_done_handler, seen)] ∧
      seen.bytes_to_read = 0 ∧ seen.UCA0IE.testBit 0 = false ∧ seen.P2OUT.testBit 3 = true) ∧
    (rx_interrupts bs (hal_uart_dma_receive_block buf n ifg s)).bytes_to_read = 0 ∧
    ¬ rx_irq_enabled (rx_interrupts bs (hal_uart_dma_receive_block buf n ifg s)) ∧
    rts_stop (rx_interrupts bs (hal_uart_dma_receive_block buf n ifg s)) := by
  obtain ⟨a1, a2, a3, a4, a5, a6, a7⟩ := receive_block_facts buf n ifg s
  have hn : n % 65536 = n := Nat.mod_eq_of_lt (by omega)
  rw [hn] at a1
  generalize hal_uart_dma_receive_block buf n ifg s = t at a1 a2 a3 a4 a5 a6 a7 ⊢
  refine ⟨?_, ?_, ?_, ?_, ?_⟩
  · intro k hk
    have hlen : (bs.take k).length = k := by
      rw [List.length_take]; omega
    have hA : (bs.take k).length ≤ t.bytes_to_read := by omega
    have hB : t.bytes_to_read < 65536 := by omega
    have hC : (bs.take k).length < t.bytes_to_read := by omega
    have r := (rx_run (bs.take k) t hA hB).2.2.2.2.1 hC
    rw [r.1, a5]
  · have hA : bs.length ≤ t.bytes_to_read := by omega
    have hB : t.bytes_to_read < 65536 := by omega
    have hD : 0 < bs.length := by omega
    have hE : bs.length = t.bytes_to_read := by omega
    obtain ⟨seen, c, r1, r2, r3, _⟩ := (rx_run bs t hA hB).2.2.2.2.2 hD hE
    exact ⟨seen, by rw [c, a5, a3], r1, r2, r3⟩
  · have hA : bs.length ≤ t.bytes_to_read := by omega
    have hB : t.bytes_to_read < 65536 := by omega
    rw [(rx_run bs t hA hB).1]; omega
  · have hA : bs.length ≤ t.bytes_to_read := by omega
    have hB : t.bytes_to_read < 65536 := by omega
    have hD : 0 < bs.length := by omega
    have hE : bs.length = t.bytes_to_read := by omega
    obtain ⟨seen, _, _, _, _, r4, _⟩ := (rx_run bs t hA hB).2.2.2.2.2 hD hE
    unfold rx_irq_enabled
    rw [r4]; simp
  · have hA : bs.length ≤ t.bytes_to_read := by omega
    have hB : t.bytes_to_read < 65536 := by omega
    have hD : 0 < bs.length := by omega
    have hE : bs.length = t.bytes_to_read := by omega
    obtain ⟨seen, _, _, _, _, _, r5⟩ := (rx_run bs t hA hB).2.2.2.2.2 hD hE
    exact r5

/-- Witness for C2: a block of two bytes armed on the state at program start. -/
theorem rx_block_completes_once_witness :
    (1 ≤ 2 ∧ 2 ≤ 65535 ∧ [5, 6].length = 2) ∧
    calls (rx_interrupts ([5, 6].take 1)
      (hal_uart_dma_receive_block 9216 2 0 reset_state)).log = calls reset_state.log ∧
    (rx_interrupts [5, 6] (hal_uart_dma_receive_block 9216 2 0 reset_state)).bytes_to_read = 0 ∧
    rts_stop (rx_interrupts [5, 6] (hal_uart_dma_receive_block 9216 2 0 reset_state)) :=
  ⟨by decide,
   (rx_block_completes_once 9216 2 0 [5, 6] reset_state (by decide) (by decide) rfl).1 1
     (by decide),
   (rx_block_completes_once 9216 2 0 [5, 6] reset_state (by decide) (by decide) rfl).2.2.1,
   (rx_block_completes_once 9216 2 0 [5, 6] reset_state (by decide) (by decide) rfl).2.2.2.2⟩

/-! ## Receive: storage order (C3) -/

theorem set_baud_frame (b : Nat) (s : State) :
    (hal_uart_dma_set_baud b s).2.P2OUT = s.P2OUT ∧
    (hal_uart_dma_set_baud b s).2.bytes_to_read = s.bytes_to_read ∧
    (hal_uart_dma_set_baud b s).2.rx_done_handler = s.rx_done_handler ∧
    (hal_uart_dma_set_baud b s).2.mem = s.mem ∧
    calls (hal_uart_dma_set_baud b s).2.log = calls s.log := by
  simp only [hal_uart_dma_set_baud]
  split_ifs <;> simp [wr, emit, calls, Event.asCall]

theorem init_frame (s : State) :
    (hal_uart_dma_init s).P2OUT = or8 s.P2OUT RTS_PIN ∧
    (hal_uart_dma_init s).bytes_to_read = s.bytes_to_read ∧
    (hal_uart_dma_init s).rx_done_handler = s.rx_done_handler ∧
    (hal_uart_dma_init s).mem = s.mem ∧
    calls (hal_uart_dma_init s).log = calls s.log := by
  simp [hal_uart_dma_init, hal_uart_dma_set_baud, wr, emit, calls, Event.asCall]

/-- C3: for `1 ≤ n ≤ 65535` and bytes `bs` of length `n`, after
`hal_uart_dma_receive_block buf n` and `n` RX interrupts delivering `bs` in
turn, `buf[i] = bs[i]` for every `i < n` and memory outside `buf[0..n)` is
unchanged.  In particular after init, `set_baud(115200)` (which succeeds),
`receive_block(buf, 4)` and the bytes 1, 2, 3, 4 the buffer holds 1, 2, 3, 4,
one handler call (of `rx_done_handler`) has been made and RTS reads stop. -/
theorem rx_block_stores_in_order :
    (∀ (buf n ifg : Nat) (bs : List Nat) (s : State),
      1 ≤ n → n ≤ 65535 → bs.length = n → (∀ b ∈ bs, b < 256) →
      (∀ i, i < n →
        (rx_interrupts bs (hal_uart_dma_receive_block buf n ifg s)).mem (buf + i)
          = bs.getD i 0) ∧
      (∀ a, a < buf ∨ buf + n ≤ a →
        (rx_interrupts bs (hal_uart_dma_receive_block buf n ifg s)).mem a = s.mem a)) ∧
    (∀ (buf ifg : Nat) (s0 : State),
      (hal_uart_dma_set_baud 115200 (hal_uart_dma_init s0)).1 = 0 ∧
      (∀ i, i < 4 →
        (rx_interrupts [1, 2, 3, 4] (hal_uart_dma_receive_block buf 4 ifg
          (hal_uart_dma_set_baud 115200 (hal_uart_dma_init s0)).2)).mem (buf + i)
          = [1, 2, 3, 4].getD i 0) ∧
      (∃ seen, calls (rx_interrupts [1, 2, 3, 4] (hal_uart_dma_receive_block buf 4 ifg
          (hal_uart_dma_set_baud 115200 (hal_uart_dma_init s0)).2)).log
          = calls s0.log ++ [(s0.rx_done_handler, seen)]) ∧
      rts_stop (rx_interrupts [1, 2, 3, 4] (hal_uart_dma_receive_block buf 4 ifg
          (hal_uart_dma_set_baud 115200 (hal_uart_dma_init s0)).2))) := by
  have gen : ∀ (buf n ifg : Nat) (bs : List Nat) (s : State),
      1 ≤ n → n ≤ 65535 → bs.length = n → (∀ b ∈ bs, b < 256) →
      (∀ i, i < n →
        (rx_interrupts bs (hal_uart_dma_receive_block buf n ifg s)).mem (buf + i)
          = bs.getD i 0) ∧
      (∀ a, a < buf ∨ buf + n ≤ a →
        (rx_interrupts bs (hal_uart_dma_receive_block buf n ifg s)).mem a = s.mem a) := by
    intro buf n ifg bs s h1 h2 hbs hbyte
    obtain ⟨a1, a2, a3, a4, a5, a6, a7⟩ := receive_block_facts buf n ifg s
    have hn : n % 65536 = n := Nat.mod_eq_of_lt (by omega)
    rw [hn] at a1
    generalize hal_uart_dma_receive_block buf n ifg s = t at a1 a2 a3 a4 a5 a6 a7 ⊢
    have hA : bs.length ≤ t.bytes_to_read := by omega
    have hB : t.bytes_to_read < 65536 := by omega
    have hm := (rx_run bs t hA hB).2.2.2.1
    constructor
    · intro i hi
      have hin : t.rx_buffer_ptr ≤ buf + i ∧ buf + i < t.rx_buffer_ptr + bs.length := by omega
      have hidx : buf + i - t.rx_buffer_ptr = i := by omega
      rw [hm, if_pos hin, hidx]
      have hlt : i < bs.length := by omega
      rw [List.getD_eq_getElem bs 0 hlt]
      exact Nat.mod_eq_of_lt (hbyte _ (List.getElem_mem _))
    · intro a ha
      have hout : ¬ (t.rx_buffer_ptr ≤ a ∧ a < t.rx_buffer_ptr + bs.length) := by omega
      rw [hm, if_neg hout, a4]
  refine ⟨gen, ?_⟩
  intro buf ifg s0
  obtain ⟨c1, c2, c3, c4, c5⟩ := init_frame s0
  obtain ⟨d1, d2, d3, d4, d5⟩ := set_baud_frame 115200 (hal_uart_dma_init s0)
  have hres : (hal_uart_dma_set_baud 115200 (hal_uart_dma_init s0)).1 = 0 := by
    simp [hal_uart_dma_set_baud]
  generalize (hal_uart_dma_set_baud 115200 (hal_uart_dma_init s0)).2 = s at d1 d2 d3 d4 d5 ⊢
  refine ⟨hres, ?_, ?_, ?_⟩
  · exact (gen buf 4 ifg [1, 2, 3, 4] s (by decide) (by decide) rfl (by decide)).1
  · obtain ⟨a1, a2, a3, a4, a5, a6, a7⟩ := receive_block_facts buf 4 ifg s
    generalize hal_uart_dma_receive_block buf 4 ifg s = t at a1 a2 a3 a4 a5 a6 a7 ⊢
    have hA : [1, 2, 3, 4].length ≤ t.bytes_to_read := by rw [a1]; decide
    have hB : t.bytes_to_read < 65536 := by rw [a1]; decide
    have hE : [1, 2, 3, 4].length = t.bytes_to_read := by rw [a1]; rfl
    obtain ⟨seen, c, _⟩ := (rx_run [1, 2, 3, 4] t hA hB).2.2.2.2.2 (by decide) hE
    exact ⟨seen, by rw [c, a5, a3, d5, d3, c5, c3]⟩
  · obtain ⟨a1, a2, a3, a4, a5, a6, a7⟩ := receive_block_facts buf 4 ifg s
    generalize hal_uart_dma_receive_block buf 4 ifg s = t at a1 a2 a3 a4 a5 a6 a7 ⊢
    have hA : [1, 2, 3, 4].length ≤ t.bytes_to_read := by rw [a1]; decide
    have hB : t.bytes_to_read < 65536 := by rw [a1]; decide
    have hE : [1, 2, 3, 4].length = t.bytes_to_read := by rw [a1]; rfl
    obtain ⟨seen, _, _, _, _, _, r5⟩ := (rx_run [1, 2, 3, 4] t hA hB).2.2.2.2.2 (by decide) hE
    exact r5

/-- Witness for C3: two bytes received into a buffer at address 9216. -/
theorem rx_block_stores_in_order_witness :
    (1 ≤ 2 ∧ 2 ≤ 65535 ∧ [5, 6].length = 2 ∧ ∀ b ∈ [5, 6], b < 256) ∧
    (rx_interrupts [5, 6] (hal_uart_dma_receive_block 9216 2 0 reset_state)).mem (9216 + 1)
      = [5, 6].getD 1 0 ∧
    (rx_interrupts [5, 6] (hal_uart_dma_receive_block 9216 2 0 reset_state)).mem 9218
      = reset_state.mem 9218 :=
  ⟨by decide,
   (rx_block_stores_in_order.1 9216 2 0 [5, 6] reset_state (by decide) (by decide) rfl
     (by decide)).1 1 (by decide),
   (rx_block_stores_in_order.1 9216 2 0 [5, 6] reset_state (by decide) (by decide) rfl
     (by decide)).2 9218 (by decide)⟩

/-! ## Arming a receive: write order (C7) -/

/-- C7, as stated, fails: arming a receive of four bytes after init with no byte
pending, the write that sets `UCRXIE` is the second action of the call and the
write that drives RTS low is the third, so the RTS write is the later one. -/
theorem receive_block_rts_before_rxie_counterexample :
    ¬ (List.findIdx is_rts_go_write
        (actions_since (hal_uart_dma_init reset_state)
          (hal_uart_dma_receive_block 9216 4 0 (hal_uart_dma_init reset_state)))
      ≤ List.findIdx is_rxie_set_write
        (actions_since (hal_uart_dma_init reset_state)
          (hal_uart_dma_receive_block 9216 4 0 (hal_uart_dma_init reset_state)))) := by
  decide

/-- C7 (amended): with no byte pending, `hal_uart_dma_receive_block` performs
exactly three register writes, in this order: clear `UCRXIE`, set `UCRXIE`,
drive RTS low.  The write that sets `UCRXIE` (position 1) comes before the write
that drives RTS to go (position 2), which is the last write of the call. -/
theorem receive_block_write_order (buf len ifg : Nat) (s : State)
    (hclear : ifg &&& UCRXIFG = 0) :
    actions_since s (hal_uart_dma_receive_block buf len ifg s)
      = [Event.write Reg.UCA0IE (andnot8 s.UCA0IE UCRXIE),
         Event.write Reg.UCA0IE (or8 (andnot8 s.UCA0IE UCRXIE) UCRXIE),
         Event.write Reg.P2OUT (andnot8 s.P2OUT RTS_PIN)] ∧
    List.findIdx is_rxie_set_write
      (actions_since s (hal_uart_dma_receive_block buf len ifg s)) = 1 ∧
    List.findIdx is_rts_go_write
      (actions_since s (hal_uart_dma_receive_block buf len ifg s)) = 2 := by
  have hact : actions_since s (hal_uart_dma_receive_block buf len ifg s)
      = [Event.write Reg.UCA0IE (andnot8 s.UCA0IE UCRXIE),
         Event.write Reg.UCA0IE (or8 (andnot8 s.UCA0IE UCRXIE) UCRXIE),
         Event.write Reg.P2OUT (andnot8 s.P2OUT RTS_PIN)] := by
    rw [receive_block_eq, if_pos hclear]
    unfold actions_since
    exact drop_own_log _ _
  refine ⟨hact, ?_, ?_⟩
  · have e1 : is_rxie_set_write (Event.write Reg.UCA0IE (andnot8 s.UCA0IE UCRXIE)) = false :=
      testBit_andnot8_rxie _
    have e2 : is_rxie_set_write
        (Event.write Reg.UCA0IE (or8 (andnot8 s.UCA0IE UCRXIE) UCRXIE)) = true :=
      testBit_or8_rxie _
    rw [hact]
    simp [List.findIdx_cons, e1, e2]
  · have e1 : is_rts_go_write (Event.write Reg.UCA0IE (andnot8 s.UCA0IE UCRXIE)) = false := rfl
    have e2 : is_rts_go_write
        (Event.write Reg.UCA0IE (or8 (andnot8 s.UCA0IE UCRXIE) UCRXIE)) = false := rfl
    have e3 : is_rts_go_write (Event.write Reg.P2OUT (andnot8 s.P2OUT RTS_PIN)) = true := by
      have h3 : (andnot8 s.P2OUT RTS_PIN).testBit 3 = false := testBit_andnot8_same _
      simp only [is_rts_go_write, h3]; rfl
    rw [hact]
    simp [List.findIdx_cons, e1, e2, e3]

/-- Witness for C7 (amended): arming four bytes after init with no byte pending. -/
theorem receive_block_write_order_witness :
    0 &&& UCRXIFG = 0 ∧
    List.findIdx is_rxie_set_write
      (actions_since (hal_uart_dma_init reset_state)
        (hal_uart_dma_receive_block 9216 4 0 (hal_uart_dma_init reset_state))) = 1 ∧
    List.findIdx is_rts_go_write
      (actions_since (hal_uart_dma_init reset_state)
        (hal_uart_dma_receive_block 9216 4 0 (hal_uart_dma_init reset_state))) = 2 :=
  ⟨by decide,
   (receive_block_write_order 9216 4 0 (hal_uart_dma_init reset_state) (by decide)).2⟩

/-! ## Baud table (C8, C9, C10) -/

theorem set_baud_supported_pairs (s : State) :
    (baud_divisor (hal_uart_dma_set_baud 57600 s).2 = 277 ∧
      baud_modulation (hal_uart_dma_set_baud 57600 s).2 = 7) ∧
    (baud_divisor (hal_uart_dma_set_baud 115200 s).2 = 138 ∧
      baud_modulation (hal_uart_dma_set_baud 115200 s).2 = 7) ∧
    (baud_divisor (hal_uart_dma_set_baud 921600 s).2 = 17 ∧
      baud_modulation (hal_uart_dma_set_baud 921600 s).2 = 7) ∧
    (baud_divisor (hal_uart_dma_set_baud 1000000 s).2 = 16 ∧
      baud_modulation (hal_uart_dma_set_baud 1000000 s).2 = 0) ∧
    (baud_divisor (hal_uart_dma_set_baud 2000000 s).2 = 8 ∧
      baud_modulation (hal_uart_dma_set_baud 2000000 s).2 = 0) ∧
    (baud_divisor (hal_uart_dma_set_baud 2400000 s).2 = 6 ∧
      baud_modulation (hal_uart_dma_set_baud 2400000 s).2 = 5) ∧
    (baud_divisor (hal_uart_dma_set_baud 3000000 s).2 = 3 ∧
      baud_modulation (hal_uart_dma_set_baud 3000000 s).2 = 3) ∧
    (baud_divisor (hal_uart_dma_set_baud 4000000 s).2 = 2 ∧
      baud_modulation (hal_uart_dma_set_baud 4000000 s).2 = 0) := by
  simp [hal_uart_dma_set_baud, baud_divisor, baud_modulation, wr, emit]

/-- C8, as stated, fails at 921600: the configured pair is (17, 7), not the
(17, 3) of the annotation `+ 0.375`. -/
theorem set_baud_921600_pair_counterexample :
    (baud_divisor (hal_uart_dma_set_baud 921600 reset_state).2,
      baud_modulation (hal_uart_dma_set_baud 921600 reset_state).2) = (17, 7) ∧
    (baud_divisor (hal_uart_dma_set_baud 921600 reset_state).2,
      baud_modulation (hal_uart_dma_set_baud 921600 reset_state).2) ≠ (17, 3) := by
  decide

/-- C8 (amended): after `hal_uart_dma_set_baud` the pair (divisor, modulation
stage) is 57600 -> (277, 7), 115200 -> (138, 7), 921600 -> (17, 7),
1000000 -> (16, 0), 2000000 -> (8, 0), 2400000 -> (6, 5), 3000000 -> (3, 3),
4000000 -> (2, 0), from every starting state. -/
theorem set_baud_configured_pairs (s : State) :
    (baud_divisor (hal_uart_dma_set_baud 57600 s).2,
      baud_modulation (hal_uart_dma_set_baud 57600 s).2) = (277, 7) ∧
    (baud_divisor (hal_uart_dma_set_baud 115200 s).2,
      baud_modulation (hal_uart_dma_set_baud 115200 s).2) = (138, 7) ∧
    (baud_divisor (hal_uart_dma_set_baud 921600 s).2,
      baud_modulation (hal_uart_dma_set_baud 921600 s).2) = (17, 7) ∧
    (baud_divisor (hal_uart_dma_set_baud 1000000 s).2,
      baud_modulation (hal_uart_dma_set_baud 1000000 s).2) = (16, 0) ∧
    (baud_divisor (hal_uart_dma_set_baud 2000000 s).2,
      baud_modulation (hal_uart_dma_set_baud 2000000 s).2) = (8, 0) ∧
    (baud_divisor (hal_uart_dma_set_baud 2400000 s).2,
      baud_modulation (hal_uart_dma_set_baud 2400000 s).2) = (6, 5) ∧
    (baud_divisor (hal_uart_dma_set_baud 3000000 s).2,
      baud_modulation (hal_uart_dma_set_baud 3000000 s).2) = (3, 3) ∧
    (baud_divisor (hal_uart_dma_set_baud 4000000 s).2,
      baud_modulation (hal_uart_dma_set_baud 4000000 s).2) = (2, 0) := by
  obtain ⟨⟨a1, a2⟩, ⟨b1, b2⟩, ⟨c1, c2⟩, ⟨d1, d2⟩, ⟨e1, e2⟩, ⟨f1, f2⟩, ⟨g1, g2⟩, ⟨h1, h2⟩⟩ :=
    set_baud_supported_pairs s
  rw [a1, a2, b1, b2, c1, c2, d1, d2, e1, e2, f1, f2, g1, g2, h1, h2]
  exact ⟨rfl, rfl, rfl, rfl, rfl, rfl, rfl, rfl⟩

/-- C9 fails on the code at 3000000 and 4000000: the divisor configured is 3,
respectively 2, while the 16 MHz clock requires `16000000 / 3000000 = 5`,
respectively `16000000 / 4000000 = 4`.  For the other six rates the divisor is
`16000000 / b`. -/
theorem set_baud_divisor_vs_clock (s : State) :
    (baud_divisor (hal_uart_dma_set_baud 3000000 s).2 = 3 ∧ 16000000 / 3000000 = 5) ∧
    (baud_divisor (hal_uart_dma_set_baud 4000000 s).2 = 2 ∧ 16000000 / 4000000 = 4) ∧
    baud_divisor (hal_uart_dma_set_baud 57600 s).2 = 16000000 / 57600 ∧
    baud_divisor (hal_uart_dma_set_baud 115200 s).2 = 16000000 / 115200 ∧
    baud_divisor (hal_uart_dma_set_baud 921600 s).2 = 16000000 / 921600 ∧
    baud_divisor (hal_uart_dma_set_baud 1000000 s).2 = 16000000 / 1000000 ∧
    baud_divisor (hal_uart_dma_set_baud 2000000 s).2 = 16000000 / 2000000 ∧
    baud_divisor (hal_uart_dma_set_baud 2400000 s).2 = 16000000 / 2400000 := by
  obtain ⟨⟨a1, _⟩, ⟨b1, _⟩, ⟨c1, _⟩, ⟨d1, _⟩, ⟨e1, _⟩, ⟨f1, _⟩, ⟨g1, _⟩, ⟨h1, _⟩⟩ :=
    set_baud_supported_pairs s
  rw [a1, b1, c1, d1, e1, f1, g1, h1]
  decide

/-- C10: for every rate outside the supported set, `hal_uart_dma_set_baud`
leaves `UCA0BR0`, `UCA0BR1` and `UCA0MCTL` as they were. -/
theorem set_baud_unsupported_keeps_config (b : Nat) (s : State)
    (hb : b ∉ supported_rates) :
    (hal_uart_dma_set_baud b s).2.UCA0BR0 = s.UCA0BR0 ∧
    (hal_uart_dma_set_baud b s).2.UCA0BR1 = s.UCA0BR1 ∧
    (hal_uart_dma_set_baud b s).2.UCA0MCTL = s.UCA0MCTL := by
  simp only [supported_rates, List.mem_cons, List.mem_singleton, not_or] at hb
  simp [hal_uart_dma_set_baud, hb, wr, emit]

/-- Witness for C10: 9600 baud requested after init, which had configured 115200. -/
theorem set_baud_unsupported_keeps_config_witness :
    9600 ∉ supported_rates ∧
    (hal_uart_dma_set_baud 9600 (hal_uart_dma_init reset_state)).2.UCA0BR0
      = (hal_uart_dma_init reset_state).UCA0BR0 ∧
    (hal_uart_dma_set_baud 9600 (hal_uart_dma_init reset_state)).2.UCA0BR1
      = (hal_uart_dma_init reset_state).UCA0BR1 ∧
    (hal_uart_dma_set_baud 9600 (hal_uart_dma_init reset_state)).2.UCA0MCTL
      = (hal_uart_dma_init reset_state).UCA0MCTL :=
  ⟨by decide,
   set_baud_unsupported_keeps_config 9600 (hal_uart_dma_init reset_state) (by decide)⟩

/-! ## Bits of read-modify-write results -/

theorem testBit_or8 (x m i : Nat) :
    (or8 x m).testBit i = (decide (i < 8) && (x.testBit i || m.testBit i)) := by
  unfold or8
  rw [show 256 = 2 ^ 8 from rfl, Nat.testBit_mod_two_pow, Nat.testBit_lor]

theorem testBit_andnot8 (x m i : Nat) :
    (andnot8 x m).testBit i = (decide (i < 8) && (x.testBit i && (not16 m).testBit i)) := by
  unfold andnot8
  rw [show 256 = 2 ^ 8 from rfl, Nat.testBit_mod_two_pow, Nat.testBit_land]

theorem andnot8_idem (x m : Nat) : andnot8 (andnot8 x m) m = andnot8 x m := by
  apply Nat.eq_of_testBit_eq
  intro i
  simp only [testBit_andnot8]
  cases decide (i < 8) <;> cases x.testBit i <;> cases (not16 m).testBit i <;> rfl

theorem or8_pair_idem (x a b : Nat) :
    or8 (or8 (or8 (or8 x a) b) a) b = or8 (or8 x a) b := by
  apply Nat.eq_of_testBit_eq
  intro i
  simp only [testBit_or8]
  cases decide (i < 8) <;> cases x.testBit i <;> cases a.testBit i <;> cases b.testBit i <;> rfl

theorem andnot8_fix (x m k : Nat) (hx : x < 256)
    (hm : ∀ i, i < 8 → i ≠ k → (not16 m).testBit i = true)
    (hk : x.testBit k = false) : andnot8 x m = x := by
  apply Nat.eq_of_testBit_eq
  intro i
  rw [testBit_andnot8]
  by_cases hi : i < 8
  · by_cases hik : i = k
    · subst hik; simp [hk]
    · simp [hi, hm i hi hik]
  · have : x.testBit i = false := by
      apply Nat.testBit_eq_false_of_lt
      calc x < 256 := hx
        _ = 2 ^ 8 := rfl
        _ ≤ 2 ^ i := Nat.pow_le_pow_right (by decide) (by omega)
    simp [hi, this]

/-! ## Software reset around the baud lookup (C11) -/

/-- C11, as stated, fails: after `hal_uart_dma_set_baud 9600`, an unsupported
rate, `UCSWRST` is clear on return, not set. -/
theorem set_baud_unsupported_reset_counterexample :
    9600 ∉ supported_rates ∧
    ¬ swrst_set (hal_uart_dma_set_baud 9600 (hal_uart_dma_init reset_state)).2 := by
  decide

/-- C11 (amended): `hal_uart_dma_set_baud` first writes `UCA0CTL1` with `UCSWRST`
set, before the lookup, and last writes `UCA0CTL1` with `UCSWRST` cleared,
whatever the lookup gave: for every rate, supported or not, `UCSWRST` is clear
when the function returns. -/
theorem set_baud_reset_bracket (b : Nat) (s : State) :
    (∃ mid, actions_since s (hal_uart_dma_set_baud b s).2
        = Event.write Reg.UCA0CTL1 (or8 s.UCA0CTL1 UCSWRST)
          :: (mid ++ [Event.write Reg.UCA0CTL1
                (andnot8 (or8 s.UCA0CTL1 UCSWRST) UCSWRST)])) ∧
    (or8 s.UCA0CTL1 UCSWRST).testBit 0 = true ∧
    (andnot8 (or8 s.UCA0CTL1 UCSWRST) UCSWRST).testBit 0 = false ∧
    ¬ swrst_set (hal_uart_dma_set_baud b s).2 := by
  have h1 : (or8 s.UCA0CTL1 UCSWRST).testBit 0 = true := by
    rw [testBit_or8]; simp +decide
  have h2 : ∀ x, (andnot8 x UCSWRST).testBit 0 = false := by
    intro x; rw [testBit_andnot8]; simp +decide
  refine ⟨?_, h1, h2 _, ?_⟩
  · simp only [hal_uart_dma_set_baud, actions_since]
    split_ifs
    all_goals simp only [wr, emit, List.append_assoc, List.drop_left]
    all_goals first
      | exact ⟨[], rfl⟩
      | exact ⟨[_, _, _], rfl⟩
  · unfold swrst_set
    simp only [hal_uart_dma_set_baud]
    split_ifs <;> simp only [wr, emit, h2] <;> simp

/-! ## Stray interrupts (C13) -/

theorem andnot8_lt (x m : Nat) : andnot8 x m < 256 := by
  unfold andnot8; exact Nat.mod_lt _ (by decide)

theorem or8_lt (x m : Nat) : or8 x m < 256 := by
  unfold or8; exact Nat.mod_lt _ (by decide)

theorem tx_step_ie_lt (r : Nat) (s : State) (h : s.UCA0IE < 256) :
    (usbRxTxISR 4 r s).UCA0IE < 256 := by
  by_cases hz : s.bytes_to_write = 0
  · simp only [usbRxTxISR, hz, wr, emit]
    simpa using andnot8_lt _ _
  · by_cases hd : dec16 s.bytes_to_write > 0
    · simpa [usbRxTxISR, hz, hd, wr, emit] using h
    · have hd0 : dec16 s.bytes_to_write = 0 := by omega
      simpa [usbRxTxISR, hz, hd0, wr, emit, invoke] using andnot8_lt _ _

theorem tx_run_ie_lt (rs : List Nat) : ∀ s : State, s.UCA0IE < 256 →
    (tx_interrupts rs s).UCA0IE < 256 := by
  induction rs with
  | nil => intro s h; exact h
  | cons r rest ih =>
    intro s h
    have hfold : tx_interrupts (r :: rest) s = tx_interrupts rest (usbRxTxISR 4 r s) := rfl
    rw [hfold]
    exact ih _ (tx_step_ie_lt r s h)

theorem not16_txie_bits : ∀ i, i < 8 → i ≠ 1 → (not16 UCTXIE).testBit i = true := by
  decide

/-- C13: an RX interrupt taken with `bytes_to_read = 0` clears `UCRXIE`, leaves
the count at 0 and the cursor and memory unchanged, writes nothing to
`UCA0TXBUF`, calls no handler and drives RTS to stop; a TX interrupt taken with
`bytes_to_write = 0` clears `UCTXIE` and likewise changes nothing else.  The
interrupt following the `n` TX interrupts of a completed transmit of `n` bytes
leaves every register, static and memory byte as it was. -/
theorem stray_interrupt_is_noop :
    (∀ (b : Nat) (s : State), s.bytes_to_read = 0 →
      ¬ rx_irq_enabled (usbRxTxISR 2 b s) ∧
      (usbRxTxISR 2 b s).bytes_to_read = 0 ∧
      (usbRxTxISR 2 b s).rx_buffer_ptr = s.rx_buffer_ptr ∧
      (usbRxTxISR 2 b s).mem = s.mem ∧
      tx_bytes (usbRxTxISR 2 b s).log = tx_bytes s.log ∧
      calls (usbRxTxISR 2 b s).log = calls s.log ∧
      rts_stop (usbRxTxISR 2 b s)) ∧
    (∀ (r : Nat) (s : State), s.bytes_to_write = 0 →
      ¬ tx_irq_enabled (usbRxTxISR 4 r s) ∧
      (usbRxTxISR 4 r s).bytes_to_write = 0 ∧
      (usbRxTxISR 4 r s).tx_buffer_ptr = s.tx_buffer_ptr ∧
      (usbRxTxISR 4 r s).mem = s.mem ∧
      tx_bytes (usbRxTxISR 4 r s).log = tx_bytes s.log ∧
      calls (usbRxTxISR 4 r s).log = calls s.log) ∧
    (∀ (data n r : Nat) (rs : List Nat) (s : State),
      1 ≤ n → n ≤ 65535 → rs.length = n →
      (usbRxTxISR 4 r (tx_interrupts rs (hal_uart_dma_send_block data n s))).machine
        = (tx_interrupts rs (hal_uart_dma_send_block data n s)).machine) := by
  refine ⟨?_, ?_, ?_⟩
  · intro b s hz
    have e : usbRxTxISR 2 b s =
        { s with
          P2OUT := or8 s.P2OUT RTS_PIN
          UCA0IE := andnot8 s.UCA0IE UCRXIE
          log := s.log ++ [Event.write Reg.P2OUT (or8 s.P2OUT RTS_PIN),
                           Event.write Reg.UCA0IE (andnot8 s.UCA0IE UCRXIE)] } := by
      simp [usbRxTxISR, hz, hal_uart_dma_disable_rx, wr, emit]
    rw [e]
    refine ⟨?_, hz, rfl, rfl, ?_, ?_, ?_⟩
    · unfold rx_irq_enabled
      have := testBit_andnot8_rxie s.UCA0IE
      simp only [this]; simp
    · simp [tx_bytes_append, tx_bytes, Event.asTx]
    · simp [calls_append, calls, Event.asCall]
    · exact testBit_or8_same _
  · intro r s hz
    have e : usbRxTxISR 4 r s =
        { s with
          UCA0IE := andnot8 s.UCA0IE UCTXIE
          log := s.log ++ [Event.write Reg.UCA0IE (andnot8 s.UCA0IE UCTXIE)] } := by
      simp [usbRxTxISR, hz, wr, emit]
    rw [e]
    refine ⟨?_, hz, rfl, rfl, ?_, ?_⟩
    · unfold tx_irq_enabled
      have := testBit_andnot8_txie s.UCA0IE
      simp only [this]; simp
    · simp [tx_bytes_append, tx_bytes, Event.asTx]
    · simp [calls_append, calls, Event.asCall]
  · intro data n r rs s h1 h2 hrs
    obtain ⟨a1, _, _, _, _, _⟩ := send_block_facts data n s
    have hie : (hal_uart_dma_send_block data n s).UCA0IE < 256 := by
      rw [send_block_eq]; exact or8_lt _ _
    have hn : n % 65536 = n := Nat.mod_eq_of_lt (by omega)
    rw [hn] at a1
    generalize hal_uart_dma_send_block data n s = t0 at a1 hie ⊢
    have hA : rs.length ≤ t0.bytes_to_write := by omega
    have hB : t0.bytes_to_write < 65536 := by omega
    have hD : 0 < rs.length := by omega
    have hE : rs.length = t0.bytes_to_write := by omega
    obtain ⟨r1, _, _, _, _, _, r7⟩ := tx_run rs t0 hA hB
    obtain ⟨seen, _, _, _, q3⟩ := r7 hD hE
    have hlt := tx_run_ie_lt rs t0 hie
    have hz : (tx_interrupts rs t0).bytes_to_write = 0 := by rw [r1]; omega
    generalize tx_interrupts rs t0 = t at q3 hlt hz ⊢
    have hfix : andnot8 t.UCA0IE UCTXIE = t.UCA0IE :=
      andnot8_fix t.UCA0IE UCTXIE 1 hlt not16_txie_bits q3
    simp [usbRxTxISR, hz, wr, emit, State.machine, hfix]

/-- Witness for C13: stray RX and TX interrupts in the state at program start,
and the third TX interrupt after a transmit of two bytes. -/
theorem stray_interrupt_is_noop_witness :
    (reset_state.bytes_to_read = 0 ∧ reset_state.bytes_to_write = 0 ∧
      1 ≤ 2 ∧ 2 ≤ 65535 ∧ [0, 0].length = 2) ∧
    rts_stop (usbRxTxISR 2 7 reset_state) ∧
    (usbRxTxISR 4 0 reset_state).bytes_to_write = 0 ∧
    (usbRxTxISR 4 0 (tx_interrupts [0, 0] (hal_uart_dma_send_block 9216 2 reset_state))).machine
      = (tx_interrupts [0, 0] (hal_uart_dma_send_block 9216 2 reset_state)).machine :=
  ⟨by decide,
   (stray_interrupt_is_noop.1 7 reset_state rfl).2.2.2.2.2.2,
   (stray_interrupt_is_noop.2.1 0 reset_state rfl).2.1,
   stray_interrupt_is_noop.2.2 9216 2 0 [0, 0] reset_state (by decide) (by decide) rfl⟩

/-! ## Shutdown (C14, C15, C16) -/

theorem shutdown_eq (s : State) :
    hal_uart_dma_shutdown s =
      { s with
        UCA0IE := andnot8 s.UCA0IE (UCRXIE ||| UCTXIE)
        UCA0CTL1 := UCSWRST
        P3SEL := andnot8 s.P3SEL (BT_PIN_RXD + BT_PIN_TXD)
        P3DIR := or8 (or8 s.P3DIR BT_PIN_TXD) BT_PIN_RXD
        P3OUT := andnot8 s.P3OUT (BT_PIN_TXD + BT_PIN_RXD)
        log := s.log ++
          [Event.write Reg.UCA0IE (andnot8 s.UCA0IE (UCRXIE ||| UCTXIE)),
           Event.write Reg.UCA0CTL1 UCSWRST,
           Event.write Reg.P3SEL (andnot8 s.P3SEL (BT_PIN_RXD + BT_PIN_TXD)),
           Event.write Reg.P3DIR (or8 s.P3DIR BT_PIN_TXD),
           Event.write Reg.P3DIR (or8 (or8 s.P3DIR BT_PIN_TXD) BT_PIN_RXD),
           Event.write Reg.P3OUT (andnot8 s.P3OUT (BT_PIN_TXD + BT_PIN_RXD))] } := by
  simp [hal_uart_dma_shutdown, wr, emit]

/-- C14: `hal_uart_dma_shutdown` is idempotent: from every state, a second
shutdown leaves every register, every static and memory exactly as the first
one left them, in particular the interrupt enables, `UCA0CTL1` and the port
select, direction and output registers. -/
theorem shutdown_idempotent (s : State) :
    (hal_uart_dma_shutdown (hal_uart_dma_shutdown s)).machine
      = (hal_uart_dma_shutdown s).machine ∧
    (hal_uart_dma_shutdown (hal_uart_dma_shutdown s)).UCA0IE
      = (hal_uart_dma_shutdown s).UCA0IE ∧
    (hal_uart_dma_shutdown (hal_uart_dma_shutdown s)).UCA0CTL1
      = (hal_uart_dma_shutdown s).UCA0CTL1 ∧
    (hal_uart_dma_shutdown (hal_uart_dma_shutdown s)).P3SEL
      = (hal_uart_dma_shutdown s).P3SEL ∧
    (hal_uart_dma_shutdown (hal_uart_dma_shutdown s)).P3DIR
      = (hal_uart_dma_shutdown s).P3DIR ∧
    (hal_uart_dma_shutdown (hal_uart_dma_shutdown s)).P3OUT
      = (hal_uart_dma_shutdown s).P3OUT := by
  have hm : (hal_uart_dma_shutdown (hal_uart_dma_shutdown s)).machine
      = (hal_uart_dma_shutdown s).machine := by
    rw [shutdown_eq (hal_uart_dma_shutdown s), shutdown_eq s]
    simp [State.machine, andnot8_idem, or8_pair_idem]
  have hf : ∀ f : State → Nat, (∀ t : State, f t.machine = f t) →
      f (hal_uart_dma_shutdown (hal_uart_dma_shutdown s)) = f (hal_uart_dma_shutdown s) := by
    intro f hfm
    rw [← hfm (hal_uart_dma_shutdown (hal_uart_dma_shutdown s)), hm, hfm]
  exact ⟨hm, hf (fun t => t.UCA0IE) (fun _ => rfl), hf (fun t => t.UCA0CTL1) (fun _ => rfl),
    hf (fun t => t.P3SEL) (fun _ => rfl), hf (fun t => t.P3DIR) (fun _ => rfl),
    hf (fun t => t.P3OUT) (fun _ => rfl)⟩

theorem data_pin_mask_bits : ∀ i, i < 8 → i ≠ 3 → i ≠ 4 →
    (not16 (BT_PIN_RXD + BT_PIN_TXD)).testBit i = true ∧
    (not16 (BT_PIN_TXD + BT_PIN_RXD)).testBit i = true ∧
    BT_PIN_TXD.testBit i = false ∧ BT_PIN_RXD.testBit i = false := by
  decide

/-- C15: after `hal_uart_dma_shutdown`, from any state, `UCRXIE` and `UCTXIE` are
clear, `UCA0CTL1 = UCSWRST`, and TXD (P3.3) and RXD (P3.4) are deselected in
`P3SEL`, outputs in `P3DIR` and low in `P3OUT`; the other six bits of `P3SEL`,
`P3DIR` and `P3OUT` and the registers of ports 2 and 4 are unchanged. -/
theorem shutdown_postcondition (s : State) :
    (¬ rx_irq_enabled (hal_uart_dma_shutdown s) ∧
      ¬ tx_irq_enabled (hal_uart_dma_shutdown s)) ∧
    (hal_uart_dma_shutdown s).UCA0CTL1 = UCSWRST ∧
    ((hal_uart_dma_shutdown s).P3SEL.testBit 3 = false ∧
      (hal_uart_dma_shutdown s).P3SEL.testBit 4 = false) ∧
    ((hal_uart_dma_shutdown s).P3DIR.testBit 3 = true ∧
      (hal_uart_dma_shutdown s).P3DIR.testBit 4 = true) ∧
    ((hal_uart_dma_shutdown s).P3OUT.testBit 3 = false ∧
      (hal_uart_dma_shutdown s).P3OUT.testBit 4 = false) ∧
    (∀ i, i < 8 → i ≠ 3 → i ≠ 4 →
      (hal_uart_dma_shutdown s).P3SEL.testBit i = s.P3SEL.testBit i ∧
      (hal_uart_dma_shutdown s).P3DIR.testBit i = s.P3DIR.testBit i ∧
      (hal_uart_dma_shutdown s).P3OUT.testBit i = s.P3OUT.testBit i) ∧
    ((hal_uart_dma_shutdown s).P2OUT = s.P2OUT ∧ (hal_uart_dma_shutdown s).P2SEL = s.P2SEL ∧
      (hal_uart_dma_shutdown s).P2DIR = s.P2DIR ∧ (hal_uart_dma_shutdown s).P4OUT = s.P4OUT ∧
      (hal_uart_dma_shutdown s).P4SEL = s.P4SEL ∧ (hal_uart_dma_shutdown s).P4DIR = s.P4DIR) := by
  rw [shutdown_eq]
  refine ⟨⟨?_, ?_⟩, rfl, ⟨?_, ?_⟩, ⟨?_, ?_⟩, ⟨?_, ?_⟩, ?_, ⟨rfl, rfl, rfl, rfl, rfl, rfl⟩⟩
  · unfold rx_irq_enabled
    show ¬ (andnot8 s.UCA0IE (UCRXIE ||| UCTXIE)).testBit 0 = true
    rw [testBit_andnot8]; simp +decide
  · unfold tx_irq_enabled
    show ¬ (andnot8 s.UCA0IE (UCRXIE ||| UCTXIE)).testBit 1 = true
    rw [testBit_andnot8]; simp +decide
  · show (andnot8 s.P3SEL (BT_PIN_RXD + BT_PIN_TXD)).testBit 3 = false
    rw [testBit_andnot8]; simp +decide
  · show (andnot8 s.P3SEL (BT_PIN_RXD + BT_PIN_TXD)).testBit 4 = false
    rw [testBit_andnot8]; simp +decide
  · show (or8 (or8 s.P3DIR BT_PIN_TXD) BT_PIN_RXD).testBit 3 = true
    rw [testBit_or8, testBit_or8]; simp +decide
  · show (or8 (or8 s.P3DIR BT_PIN_TXD) BT_PIN_RXD).testBit 4 = true
    rw [testBit_or8, testBit_or8]; simp +decide
  · show (andnot8 s.P3OUT (BT_PIN_TXD + BT_PIN_RXD)).testBit 3 = false
    rw [testBit_andnot8]; simp +decide
  · show (andnot8 s.P3OUT (BT_PIN_TXD + BT_PIN_RXD)).testBit 4 = false
    rw [testBit_andnot8]; simp +decide
  · intro i hi h3 h4
    obtain ⟨m1, m2, m3, m4⟩ := data_pin_mask_bits i hi h3 h4
    refine ⟨?_, ?_, ?_⟩
    · show (andnot8 s.P3SEL (BT_PIN_RXD + BT_PIN_TXD)).testBit i = s.P3SEL.testBit i
      rw [testBit_andnot8, m1]; simp [hi]
    · show (or8 (or8 s.P3DIR BT_PIN_TXD) BT_PIN_RXD).testBit i = s.P3DIR.testBit i
      rw [testBit_or8, testBit_or8, m3, m4]; simp [hi]
    · show (andnot8 s.P3OUT (BT_PIN_TXD + BT_PIN_RXD)).testBit i = s.P3OUT.testBit i
      rw [testBit_andnot8, m2]; simp [hi]

/-- Witness for C15: bit 0 of the port 3 registers across a shutdown after init. -/
theorem shutdown_postcondition_witness :
    (0 < 8 ∧ 0 ≠ 3 ∧ 0 ≠ 4) ∧
    (hal_uart_dma_shutdown (hal_uart_dma_init reset_state)).P3SEL.testBit 0
      = (hal_uart_dma_init reset_state).P3SEL.testBit 0 ∧
    (hal_uart_dma_shutdown (hal_uart_dma_init reset_state)).UCA0CTL1 = UCSWRST :=
  ⟨by decide,
   ((shutdown_postcondition (hal_uart_dma_init reset_state)).2.2.2.2.2.1 0
     (by decide) (by decide) (by decide)).1,
   (shutdown_postcondition (hal_uart_dma_init reset_state)).2.1⟩

/-! ## Pins and peripheral after init (C16, C17) -/

theorem init_registers (s : State) :
    (hal_uart_dma_init s).P3SEL = or8 s.P3SEL (BT_PIN_RXD + BT_PIN_TXD) ∧
    (hal_uart_dma_init s).P3DIR = andnot8 (or8 s.P3DIR BT_PIN_TXD) BT_PIN_RXD ∧
    (hal_uart_dma_init s).P3OUT = s.P3OUT ∧
    (hal_uart_dma_init s).P2SEL = andnot8 (andnot8 s.P2SEL RTS_PIN) CTS_PIN ∧
    (hal_uart_dma_init s).P2DIR = andnot8 (or8 s.P2DIR RTS_PIN) CTS_PIN ∧
    (hal_uart_dma_init s).P2OUT = or8 s.P2OUT RTS_PIN ∧
    (hal_uart_dma_init s).P4SEL = andnot8 s.P4SEL N_SHUTDOWN_PIN ∧
    (hal_uart_dma_init s).P4DIR = or8 s.P4DIR N_SHUTDOWN_PIN ∧
    (hal_uart_dma_init s).P4OUT = or8 s.P4OUT N_SHUTDOWN_PIN ∧
    (hal_uart_dma_init s).UCA0CTL0 = andnot8 UCMODE_0 UC7BIT ∧
    (hal_uart_dma_init s).UCA0CTL1 =
      andnot8 (or8 (andnot8 (or8 (or8 s.UCA0CTL1 UCSWRST) UCSSEL_2) UCSWRST) UCSWRST) UCSWRST ∧
    (hal_uart_dma_init s).UCA0BR0 = 138 ∧
    (hal_uart_dma_init s).UCA0BR1 = 0 ∧
    (hal_uart_dma_init s).UCA0MCTL = 14 := by
  simp [hal_uart_dma_init, hal_uart_dma_set_baud, wr, emit]

/-- After init and shutdown from the state at program start, RTS (P2.3) and
N_SHUTDOWN (P4.1) are driven high. -/
theorem shutdown_leaves_rts_high_counterexample :
    (hal_uart_dma_shutdown (hal_uart_dma_init reset_state)).P2OUT.testBit 3 = true ∧
    (hal_uart_dma_shutdown (hal_uart_dma_init reset_state)).P4OUT.testBit 1 = true := by
  decide

/-- C16 fails on the code.  The docstring of `hal_uart_dma_shutdown` says that it
clears the GPIO settings used to communicate with the BT, and the claim asks
for TXD, RXD, RTS and N_SHUTDOWN to be non-peripheral pins driven low after
init and shutdown.  From any state, after `hal_uart_dma_init` followed by
`hal_uart_dma_shutdown`, TXD (P3.3) and RXD (P3.4) are non-peripheral pins
driven low, but RTS (P2.3) and N_SHUTDOWN (P4.1) are still as init configured
them: non-peripheral output pins driven high. -/
theorem shutdown_after_init_pins (s : State) :
    ((hal_uart_dma_shutdown (hal_uart_dma_init s)).P3SEL.testBit 3 = false ∧
      (hal_uart_dma_shutdown (hal_uart_dma_init s)).P3DIR.testBit 3 = true ∧
      (hal_uart_dma_shutdown (hal_uart_dma_init s)).P3OUT.testBit 3 = false) ∧
    ((hal_uart_dma_shutdown (hal_uart_dma_init s)).P3SEL.testBit 4 = false ∧
      (hal_uart_dma_shutdown (hal_uart_dma_init s)).P3DIR.testBit 4 = true ∧
      (hal_uart_dma_shutdown (hal_uart_dma_init s)).P3OUT.testBit 4 = false) ∧
    ((hal_uart_dma_shutdown (hal_uart_dma_init s)).P2SEL.testBit 3 = false ∧
      (hal_uart_dma_shutdown (hal_uart_dma_init s)).P2DIR.testBit 3 = true ∧
      (hal_uart_dma_shutdown (hal_uart_dma_init s)).P2OUT.testBit 3 = true) ∧
    ((hal_uart_dma_shutdown (hal_uart_dma_init s)).P4SEL.testBit 1 = false ∧
      (hal_uart_dma_shutdown (hal_uart_dma_init s)).P4DIR.testBit 1 = true ∧
      (hal_uart_dma_shutdown (hal_uart_dma_init s)).P4OUT.testBit 1 = true) := by
  obtain ⟨i1, i2, i3, i4, i5, i6, i7, i8, i9, _⟩ := init_registers s
  rw [shutdown_eq]
  simp only []
  rw [i4, i5, i6, i7, i8, i9]
  simp only [testBit_or8, testBit_andnot8]
  simp +decide

/-- C17: after `hal_uart_dma_init`, from any state, TXD is a peripheral-function
output and RXD a peripheral-function input, RTS is a GPIO output driven high,
CTS is a GPIO input, N_SHUTDOWN is a GPIO output driven high, `UCA0CTL0 = 0`,
`UCSWRST` is clear, and `UCA0BR0 = 138`, `UCA0BR1 = 0`, `UCA0MCTL = 14`. -/
theorem init_postcondition (s : State) :
    ((hal_uart_dma_init s).P3SEL.testBit 3 = true ∧
      (hal_uart_dma_init s).P3DIR.testBit 3 = true) ∧
    ((hal_uart_dma_init s).P3SEL.testBit 4 = true ∧
      (hal_uart_dma_init s).P3DIR.testBit 4 = false) ∧
    ((hal_uart_dma_init s).P2SEL.testBit 3 = false ∧
      (hal_uart_dma_init s).P2DIR.testBit 3 = true ∧
      rts_stop (hal_uart_dma_init s)) ∧
    ((hal_uart_dma_init s).P2SEL.testBit 6 = false ∧
      (hal_uart_dma_init s).P2DIR.testBit 6 = false) ∧
    ((hal_uart_dma_init s).P4SEL.testBit 1 = false ∧
      (hal_uart_dma_init s).P4DIR.testBit 1 = true ∧
      (hal_uart_dma_init s).P4OUT.testBit 1 = true) ∧
    (hal_uart_dma_init s).UCA0CTL0 = 0 ∧
    ¬ swrst_set (hal_uart_dma_init s) ∧
    ((hal_uart_dma_init s).UCA0BR0 = 138 ∧ (hal_uart_dma_init s).UCA0BR1 = 0 ∧
      (hal_uart_dma_init s).UCA0MCTL = 14) := by
  obtain ⟨i1, i2, i3, i4, i5, i6, i7, i8, i9, i10, i11, i12, i13, i14⟩ := init_registers s
  unfold rts_stop swrst_set
  rw [i1, i2, i4, i5, i6, i7, i8, i9, i10, i11, i12, i13, i14]
  simp only [testBit_or8, testBit_andnot8]
  simp +decide

/-! ## CTS edge interrupt (C18) -/

theorem cts_step (s : State) :
    (ctsISR s).cts_irq_handler = s.cts_irq_handler ∧
    (calls (ctsISR s).log).map Prod.fst
      = (calls s.log).map Prod.fst ++ [s.cts_irq_handler] := by
  simp [ctsISR, wr, emit, invoke, calls, Event.asCall]

theorem cts_run (k : Nat) : ∀ s : State,
    (calls (cts_interrupts k s).log).map Prod.fst
      = (calls s.log).map Prod.fst ++ List.replicate k s.cts_irq_handler := by
  induction k with
  | zero => intro s; simp [cts_interrupts]
  | succ k ih =>
    intro s
    have hfold : cts_interrupts (k + 1) s = cts_interrupts k (ctsISR s) := rfl
    obtain ⟨c1, c2⟩ := cts_step s
    rw [hfold, ih (ctsISR s), c1, c2, List.replicate_succ]
    simp

/-- C18: with `HAVE_CTS_IRQ`, `hal_uart_dma_set_csr_irq_handler h` for a non-null
`h` writes `P2IFG = 0` first and sets the CTS bit of `P2IE` last; from every
state, with or without a stale flag in `P2IFG`, `P2IFG` is 0 on return and no
handler has been called by the call.  Afterwards `k` invocations of `ctsISR`
make exactly `k` handler calls, all of them of `h`. -/
theorem cts_handler_enable (h : FnPtr) (s : State) (hh : h ≠ FnPtr.null) :
    actions_since s (hal_uart_dma_set_csr_irq_handler true h s)
      = [Event.write Reg.P2IFG 0, Event.write Reg.P2IV 0,
         Event.write Reg.P2IES (andnot8 s.P2IES CTS_PIN),
         Event.write Reg.P2IE (or8 s.P2IE CTS_PIN)] ∧
    (or8 s.P2IE CTS_PIN).testBit 6 = true ∧
    (hal_uart_dma_set_csr_irq_handler true h s).P2IFG = 0 ∧
    (hal_uart_dma_set_csr_irq_handler true h s).P2IE.testBit 6 = true ∧
    calls (hal_uart_dma_set_csr_irq_handler true h s).log = calls s.log ∧
    (∀ k, (calls (cts_interrupts k (hal_uart_dma_set_csr_irq_handler true h s)).log).map
        Prod.fst = (calls s.log).map Prod.fst ++ List.replicate k h) := by
  have e : hal_uart_dma_set_csr_irq_handler true h s =
      { s with
        P2IFG := 0
        P2IV := 0
        P2IES := andnot8 s.P2IES CTS_PIN
        P2IE := or8 s.P2IE CTS_PIN
        cts_irq_handler := h
        log := s.log ++ [Event.write Reg.P2IFG 0, Event.write Reg.P2IV 0,
                         Event.write Reg.P2IES (andnot8 s.P2IES CTS_PIN),
                         Event.write Reg.P2IE (or8 s.P2IE CTS_PIN)] } := by
    simp [hal_uart_dma_set_csr_irq_handler, hh, wr, emit]
  have hbit : (or8 s.P2IE CTS_PIN).testBit 6 = true := by
    rw [testBit_or8]; simp +decide
  have hcalls : calls (hal_uart_dma_set_csr_irq_handler true h s).log = calls s.log := by
    rw [e]; simp [calls_append, calls, Event.asCall]
  refine ⟨?_, hbit, by rw [e], by rw [e]; exact hbit, hcalls, ?_⟩
  · rw [e]; unfold actions_since; exact drop_own_log _ _
  · intro k
    rw [cts_run k, hcalls, e]

/-- Witness for C18: a handler is registered while a stale CTS edge flag is set,
then two edges arrive. -/
theorem cts_handler_enable_witness :
    FnPtr.fn 1 ≠ FnPtr.null ∧
    (hal_uart_dma_set_csr_irq_handler true (FnPtr.fn 1)
      { reset_state with P2IFG := 64 }).P2IFG = 0 ∧
    (calls (cts_interrupts 2 (hal_uart_dma_set_csr_irq_handler true (FnPtr.fn 1)
      { reset_state with P2IFG := 64 })).log).map Prod.fst
      = (calls ({ reset_state with P2IFG := 64 } : State).log).map Prod.fst
          ++ List.replicate 2 (FnPtr.fn 1) :=
  ⟨by decide,
   (cts_handler_enable (FnPtr.fn 1) { reset_state with P2IFG := 64 } (by decide)).2.2.1,
   (cts_handler_enable (FnPtr.fn 1) { reset_state with P2IFG := 64 } (by decide)).2.2.2.2.2 2⟩

/-! ## Re-arming an outstanding transfer (C19) -/

theorem rx_call_iff_last (b : Nat) (s : State) (h : s.bytes_to_read < 65536) :
    calls (usbRxTxISR 2 b s).log ≠ calls s.log ↔ s.bytes_to_read = 1 := by
  by_cases h0 : s.bytes_to_read = 0
  · have : calls (usbRxTxISR 2 b s).log = calls s.log := by
      simp [usbRxTxISR, h0, hal_uart_dma_disable_rx, wr, emit, calls, Event.asCall]
    rw [this]; simp [h0]
  · by_cases h1 : s.bytes_to_read = 1
    · rw [(rx_last_facts b s h1).2.2.2.2.1]
      simp [h1]
    · have h2 : 1 < s.bytes_to_read := by omega
      rw [(rx_more_facts b s h2 h).2.2.2.2.1]
      simp [h1]

theorem tx_call_iff_last (r : Nat) (s : State) (h : s.bytes_to_write < 65536) :
    calls (usbRxTxISR 4 r s).log ≠ calls s.log ↔ s.bytes_to_write = 1 := by
  by_cases h0 : s.bytes_to_write = 0
  · have : calls (usbRxTxISR 4 r s).log = calls s.log := by
      simp [usbRxTxISR, h0, wr, emit, calls, Event.asCall]
    rw [this]; simp [h0]
  · by_cases h1 : s.bytes_to_write = 1
    · rw [(tx_last_facts r s h1).2.2.2.2.2.1]
      simp [h1]
    · have h2 : 1 < s.bytes_to_write := by omega
      rw [(tx_more_facts r s h2 h).2.2.2.2.2.1]
      simp [h1]

theorem rx_step_count (b : Nat) (s : State) (h : s.bytes_to_read < 65536) :
    (usbRxTxISR 2 b s).bytes_to_read = s.bytes_to_read - 1 := by
  by_cases h0 : s.bytes_to_read = 0
  · simp [usbRxTxISR, h0, hal_uart_dma_disable_rx, wr, emit]
  · by_cases h1 : s.bytes_to_read = 1
    · rw [(rx_last_facts b s h1).1, h1]
    · exact (rx_more_facts b s (by omega) h).1

theorem tx_step_count (r : Nat) (s : State) (h : s.bytes_to_write < 65536) :
    (usbRxTxISR 4 r s).bytes_to_write = s.bytes_to_write - 1 := by
  by_cases h0 : s.bytes_to_write = 0
  · simp [usbRxTxISR, h0, wr, emit]
  · by_cases h1 : s.bytes_to_write = 1
    · rw [(tx_last_facts r s h1).1, h1]
    · exact (tx_more_facts r s (by omega) h).1

/-- C20: after `hal_uart_dma_receive_block buf n` and `k ≤ n` RX interrupts,
`rx_buffer_ptr = buf + k` and `bytes_to_read = n - k`.  An RX interrupt that finds
a count of at least 1 lowers it by exactly one, one that finds 0 leaves it at 0
(no wrap to 65535), and a handler is called in an interrupt exactly when the
count was 1 before it.  The same holds for `tx_buffer_ptr`, `bytes_to_write`
and TX interrupts after `hal_uart_dma_send_block`. -/
theorem transfer_progress :
    (∀ (buf n ifg : Nat) (bs : List Nat) (s : State), n ≤ 65535 → bs.length ≤ n →
      (rx_interrupts bs (hal_uart_dma_receive_block buf n ifg s)).rx_buffer_ptr
        = buf + bs.length ∧
      (rx_interrupts bs (hal_uart_dma_receive_block buf n ifg s)).bytes_to_read
        = n - bs.length) ∧
    (∀ (data n : Nat) (rs : List Nat) (s : State), n ≤ 65535 → rs.length ≤ n →
      (tx_interrupts rs (hal_uart_dma_send_block data n s)).tx_buffer_ptr
        = data + rs.length ∧
      (tx_interrupts rs (hal_uart_dma_send_block data n s)).bytes_to_write
        = n - rs.length) ∧
    (∀ (b : Nat) (s : State), s.bytes_to_read < 65536 →
      (1 ≤ s.bytes_to_read → (usbRxTxISR 2 b s).bytes_to_read + 1 = s.bytes_to_read) ∧
      (s.bytes_to_read = 0 → (usbRxTxISR 2 b s).bytes_to_read = 0) ∧
      (calls (usbRxTxISR 2 b s).log ≠ calls s.log ↔ s.bytes_to_read = 1)) ∧
    (∀ (r : Nat) (s : State), s.bytes_to_write < 65536 →
      (1 ≤ s.bytes_to_write → (usbRxTxISR 4 r s).bytes_to_write + 1 = s.bytes_to_write) ∧
      (s.bytes_to_write = 0 → (usbRxTxISR 4 r s).bytes_to_write = 0) ∧
      (calls (usbRxTxISR 4 r s).log ≠ calls s.log ↔ s.bytes_to_write = 1)) := by
  refine ⟨?_, ?_, ?_, ?_⟩
  · intro buf n ifg bs s hn hk
    obtain ⟨a1, a2, _⟩ := receive_block_facts buf n ifg s
    have hmod : n % 65536 = n := Nat.mod_eq_of_lt (by omega)
    rw [hmod] at a1
    generalize hal_uart_dma_receive_block buf n ifg s = t at a1 a2 ⊢
    have hA : bs.length ≤ t.bytes_to_read := by omega
    have hB : t.bytes_to_read < 65536 := by omega
    obtain ⟨r1, r2, _⟩ := rx_run bs t hA hB
    exact ⟨by rw [r2, a2], by rw [r1, a1]⟩
  · intro data n rs s hn hk
    obtain ⟨a1, a2, _⟩ := send_block_facts data n s
    have hmod : n % 65536 = n := Nat.mod_eq_of_lt (by omega)
    rw [hmod] at a1
    generalize hal_uart_dma_send_block data n s = t at a1 a2 ⊢
    have hA : rs.length ≤ t.bytes_to_write := by omega
    have hB : t.bytes_to_write < 65536 := by omega
    obtain ⟨r1, r2, _⟩ := tx_run rs t hA hB
    exact ⟨by rw [r2, a2], by rw [r1, a1]⟩
  · intro b s h
    have hc := rx_step_count b s h
    exact ⟨fun h1 => by rw [hc]; omega, fun h0 => by rw [hc, h0], rx_call_iff_last b s h⟩
  · intro r s h
    have hc := tx_step_count r s h
    exact ⟨fun h1 => by rw [hc]; omega, fun h0 => by rw [hc, h0], tx_call_iff_last r s h⟩

/-- Witness for C20: one of three bytes has arrived, and one of two bytes has
been sent. -/
theorem transfer_progress_witness :
    (3 ≤ 65535 ∧ [9].length ≤ 3 ∧ 2 ≤ 65535 ∧ [0].length ≤ 2 ∧
      (hal_uart_dma_receive_block 9216 3 0 reset_state).bytes_to_read < 65536 ∧
      1 ≤ (hal_uart_dma_receive_block 9216 3 0 reset_state).bytes_to_read ∧
      (hal_uart_dma_send_block 9216 2 reset_state).bytes_to_write < 65536 ∧
      1 ≤ (hal_uart_dma_send_block 9216 2 reset_state).bytes_to_write) ∧
    (rx_interrupts [9] (hal_uart_dma_receive_block 9216 3 0 reset_state)).bytes_to_read
      = 3 - [9].length ∧
    (tx_interrupts [0] (hal_uart_dma_send_block 9216 2 reset_state)).bytes_to_write
      = 2 - [0].length ∧
    (usbRxTxISR 2 9 (hal_uart_dma_receive_block 9216 3 0 reset_state)).bytes_to_read + 1
      = (hal_uart_dma_receive_block 9216 3 0 reset_state).bytes_to_read ∧
    (usbRxTxISR 4 0 (hal_uart_dma_send_block 9216 2 reset_state)).bytes_to_write + 1
      = (hal_uart_dma_send_block 9216 2 reset_state).bytes_to_write :=
  ⟨by decide,
   (transfer_progress.1 9216 3 0 [9] reset_state (by decide) (by decide)).2,
   (transfer_progress.2.1 9216 2 [0] reset_state (by decide) (by decide)).2,
   (transfer_progress.2.2.1 9 (hal_uart_dma_receive_block 9216 3 0 reset_state)
     (by decide)).1 (by decide),
   (transfer_progress.2.2.2 0 (hal_uart_dma_send_block 9216 2 reset_state)
     (by decide)).1 (by decide)⟩

/-! ## Zero-length submissions (C21) -/

theorem rx_idle_step (b : Nat) (s : State) (hz : s.bytes_to_read = 0) :
    usbRxTxISR 2 b s =
      { s with
        P2OUT := or8 s.P2OUT RTS_PIN
        UCA0IE := andnot8 s.UCA0IE UCRXIE
        log := s.log ++ [Event.write Reg.P2OUT (or8 s.P2OUT RTS_PIN),
                         Event.write Reg.UCA0IE (andnot8 s.UCA0IE UCRXIE)] } := by
  simp [usbRxTxISR, hz, hal_uart_dma_disable_rx, wr, emit]

theorem tx_idle_step (r : Nat) (s : State) (hz : s.bytes_to_write = 0) :
    usbRxTxISR 4 r s =
      { s with
        UCA0IE := andnot8 s.UCA0IE UCTXIE
        log := s.log ++ [Event.write Reg.UCA0IE (andnot8 s.UCA0IE UCTXIE)] } := by
  simp [usbRxTxISR, hz, wr, emit]

theorem stores_append (l1 l2 : List Event) : stores (l1 ++ l2) = stores l1 ++ stores l2 := by
  simp [stores]

theorem rx_idle_run (bs : List Nat) : ∀ s : State, s.bytes_to_read = 0 →
    (rx_interrupts bs s).bytes_to_read = 0 ∧
    (rx_interrupts bs s).rx_buffer_ptr = s.rx_buffer_ptr ∧
    (rx_interrupts bs s).mem = s.mem ∧
    stores (rx_interrupts bs s).log = stores s.log ∧
    calls (rx_interrupts bs s).log = calls s.log := by
  induction bs with
  | nil => intro s hz; exact ⟨hz, rfl, rfl, rfl, rfl⟩
  | cons b rest ih =>
    intro s hz
    have hfold : rx_interrupts (b :: rest) s = rx_interrupts rest (usbRxTxISR 2 b s) := rfl
    have f1 : (usbRxTxISR 2 b s).bytes_to_read = 0 := by rw [rx_idle_step b s hz]; exact hz
    have f2 : (usbRxTxISR 2 b s).rx_buffer_ptr = s.rx_buffer_ptr := by rw [rx_idle_step b s hz]
    have f3 : (usbRxTxISR 2 b s).mem = s.mem := by rw [rx_idle_step b s hz]
    have f4 : stores (usbRxTxISR 2 b s).log = stores s.log := by
      rw [rx_idle_step b s hz]; simp [stores_append, stores, Event.asStore]
    have f5 : calls (usbRxTxISR 2 b s).log = calls s.log := by
      rw [rx_idle_step b s hz]; simp [calls_append, calls, Event.asCall]
    rw [hfold]
    generalize usbRxTxISR 2 b s = t at f1 f2 f3 f4 f5 ⊢
    obtain ⟨i1, i2, i3, i4, i5⟩ := ih t f1
    exact ⟨i1, by rw [i2, f2], by rw [i3, f3], by rw [i4, f4], by rw [i5, f5]⟩

theorem tx_idle_run (rs : List Nat) : ∀ s : State, s.bytes_to_write = 0 →
    (tx_interrupts rs s).bytes_to_write = 0 ∧
    (tx_interrupts rs s).tx_buffer_ptr = s.tx_buffer_ptr ∧
    (tx_interrupts rs s).mem = s.mem ∧
    tx_bytes (tx_interrupts rs s).log = tx_bytes s.log ∧
    calls (tx_interrupts rs s).log = calls s.log := by
  induction rs with
  | nil => intro s hz; exact ⟨hz, rfl, rfl, rfl, rfl⟩
  | cons r rest ih =>
    intro s hz
    have hfold : tx_interrupts (r :: rest) s = tx_interrupts rest (usbRxTxISR 4 r s) := rfl
    have f1 : (usbRxTxISR 4 r s).bytes_to_write = 0 := by rw [tx_idle_step r s hz]; exact hz
    have f2 : (usbRxTxISR 4 r s).tx_buffer_ptr = s.tx_buffer_ptr := by rw [tx_idle_step r s hz]
    have f3 : (usbRxTxISR 4 r s).mem = s.mem := by rw [tx_idle_step r s hz]
    have f4 : tx_bytes (usbRxTxISR 4 r s).log = tx_bytes s.log := by
      rw [tx_idle_step r s hz]; simp [tx_bytes_append, tx_bytes, Event.asTx]
    have f5 : calls (usbRxTxISR 4 r s).log = calls s.log := by
      rw [tx_idle_step r s hz]; simp [calls_append, calls, Event.asCall]
    rw [hfold]
    generalize usbRxTxISR 4 r s = t at f1 f2 f3 f4 f5 ⊢
    obtain ⟨i1, i2, i3, i4, i5⟩ := ih t f1
    exact ⟨i1, by rw [i2, f2], by rw [i3, f3], by rw [i4, f4], by rw [i5, f5]⟩

/-- C21: after `hal_uart_dma_receive_block buf 0`, RX interrupts in any number
call no handler, store no byte (memory and cursor are unchanged, the arriving
bytes are dropped) and leave `bytes_to_read = 0`; the first of them only drives
RTS high and clears `UCRXIE`.  After `hal_uart_dma_send_block data 0`, TX
interrupts in any number call no handler, write nothing to `UCA0TXBUF` and do
not move the cursor; the first of them only clears `UCTXIE`.  With no byte
pending, `hal_uart_dma_receive_block buf 0` returns with RTS at go while
`bytes_to_read = 0`. -/
theorem zero_length_never_completes :
    (∀ (buf ifg : Nat) (bs : List Nat) (s : State),
      calls (rx_interrupts bs (hal_uart_dma_receive_block buf 0 ifg s)).log = calls s.log ∧
      stores (rx_interrupts bs (hal_uart_dma_receive_block buf 0 ifg s)).log = stores s.log ∧
      (rx_interrupts bs (hal_uart_dma_receive_block buf 0 ifg s)).mem = s.mem ∧
      (rx_interrupts bs (hal_uart_dma_receive_block buf 0 ifg s)).rx_buffer_ptr = buf ∧
      (rx_interrupts bs (hal_uart_dma_receive_block buf 0 ifg s)).bytes_to_read = 0) ∧
    (∀ (buf ifg b : Nat) (s : State),
      actions_since (hal_uart_dma_receive_block buf 0 ifg s)
          (usbRxTxISR 2 b (hal_uart_dma_receive_block buf 0 ifg s))
        = [Event.write Reg.P2OUT (or8 (hal_uart_dma_receive_block buf 0 ifg s).P2OUT RTS_PIN),
           Event.write Reg.UCA0IE
             (andnot8 (hal_uart_dma_receive_block buf 0 ifg s).UCA0IE UCRXIE)] ∧
      ¬ rx_irq_enabled (usbRxTxISR 2 b (hal_uart_dma_receive_block buf 0 ifg s))) ∧
    (∀ (data : Nat) (rs : List Nat) (s : State),
      calls (tx_interrupts rs (hal_uart_dma_send_block data 0 s)).log = calls s.log ∧
      tx_bytes (tx_interrupts rs (hal_uart_dma_send_block data 0 s)).log = tx_bytes s.log ∧
      (tx_interrupts rs (hal_uart_dma_send_block data 0 s)).mem = s.mem ∧
      (tx_interrupts rs (hal_uart_dma_send_block data 0 s)).tx_buffer_ptr = data ∧
      (tx_interrupts rs (hal_uart_dma_send_block data 0 s)).bytes_to_write = 0) ∧
    (∀ (data r : Nat) (s : State),
      actions_since (hal_uart_dma_send_block data 0 s)
          (usbRxTxISR 4 r (hal_uart_dma_send_block data 0 s))
        = [Event.write Reg.UCA0IE (andnot8 (hal_uart_dma_send_block data 0 s).UCA0IE UCTXIE)] ∧
      ¬ tx_irq_enabled (usbRxTxISR 4 r (hal_uart_dma_send_block data 0 s))) ∧
    (∀ (buf ifg : Nat) (s : State), ifg &&& UCRXIFG = 0 →
      rts_go (hal_uart_dma_receive_block buf 0 ifg s) ∧
      (hal_uart_dma_receive_block buf 0 ifg s).bytes_to_read = 0) := by
  refine ⟨?_, ?_, ?_, ?_, ?_⟩
  · intro buf ifg bs s
    obtain ⟨a1, a2, _, a4, a5, _, _⟩ := receive_block_facts buf 0 ifg s
    have a6 : stores (hal_uart_dma_receive_block buf 0 ifg s).log = stores s.log := by
      rw [receive_block_eq]
      split <;> simp [stores_append, stores, Event.asStore]
    have hz : (hal_uart_dma_receive_block buf 0 ifg s).bytes_to_read = 0 := by rw [a1]
    generalize hal_uart_dma_receive_block buf 0 ifg s = t at a2 a4 a5 a6 hz ⊢
    obtain ⟨i1, i2, i3, i4, i5⟩ := rx_idle_run bs t hz
    exact ⟨by rw [i5, a5], by rw [i4, a6], by rw [i3, a4], by rw [i2, a2], i1⟩
  · intro buf ifg b s
    have hz : (hal_uart_dma_receive_block buf 0 ifg s).bytes_to_read = 0 := by
      rw [(receive_block_facts buf 0 ifg s).1]
    generalize hal_uart_dma_receive_block buf 0 ifg s = t at hz ⊢
    rw [rx_idle_step b t hz]
    refine ⟨?_, ?_⟩
    · unfold actions_since; exact drop_own_log _ _
    · unfold rx_irq_enabled
      have := testBit_andnot8_rxie t.UCA0IE
      simp only [this]; simp
  · intro data rs s
    obtain ⟨a1, a2, _, a4, a5, a6⟩ := send_block_facts data 0 s
    have hz : (hal_uart_dma_send_block data 0 s).bytes_to_write = 0 := by rw [a1]
    generalize hal_uart_dma_send_block data 0 s = t at a2 a4 a5 a6 hz ⊢
    obtain ⟨i1, i2, i3, i4, i5⟩ := tx_idle_run rs t hz
    exact ⟨by rw [i5, a5], by rw [i4, a6], by rw [i3, a4], by rw [i2, a2], i1⟩
  · intro data r s
    have hz : (hal_uart_dma_send_block data 0 s).bytes_to_write = 0 := by
      rw [(send_block_facts data 0 s).1]
    generalize hal_uart_dma_send_block data 0 s = t at hz ⊢
    rw [tx_idle_step r t hz]
    refine ⟨?_, ?_⟩
    · unfold actions_since; exact drop_own_log _ _
    · unfold tx_irq_enabled
      have := testBit_andnot8_txie t.UCA0IE
      simp only [this]; simp
  · intro buf ifg s hclear
    obtain ⟨a1, _, _, _, _, _, a7⟩ := receive_block_facts buf 0 ifg s
    refine ⟨?_, by rw [a1]⟩
    unfold rts_go
    rw [a7, if_pos hclear]
    exact testBit_andnot8_same _

/-- Witness for C21: a zero-length receive armed after init with no byte
pending leaves RTS at go with nothing to read. -/
theorem zero_length_never_completes_witness :
    0 &&& UCRXIFG = 0 ∧
    rts_go (hal_uart_dma_receive_block 9216 0 0 (hal_uart_dma_init reset_state)) ∧
    (hal_uart_dma_receive_block 9216 0 0 (hal_uart_dma_init reset_state)).bytes_to_read = 0 :=
  ⟨by decide,
   zero_length_never_completes.2.2.2.2 9216 0 (hal_uart_dma_init reset_state) (by decide)⟩

/-! ## Transmit: order and completion (C4) -/

theorem map_range_eq_of_getD (f : Nat → Nat) (l : List Nat)
    (h : ∀ i, i < l.length → f i = l.getD i 0) :
    (List.range l.length).map f = l := by
  apply List.ext_getElem
  · simp
  · intro i h1 h2
    rw [List.getElem_map, List.getElem_range, h i h2, List.getD_eq_getElem l 0 h2]

/-- C4: for `1 ≤ n ≤ 65535` and a buffer at `data` whose first `n` bytes are
`bytes[0], ..., bytes[n-1]`, after `hal_uart_dma_send_block data n` and `n` TX
interrupts the values written to `UCA0TXBUF` are exactly `bytes`, in that
order; no handler is called in the first `n - 1` interrupts and
`tx_done_handler` is called in the `n`-th, with `bytes_to_write = 0` and `UCTXIE`
cleared, which is also the state left behind. -/
theorem tx_block_sends_in_order (data n : Nat) (bytes rs : List Nat) (s : State)
    (h1 : 1 ≤ n) (h2 : n ≤ 65535) (hrs : rs.length = n)
    (hlen : bytes.length = n) (hbyte : ∀ b ∈ bytes, b < 256)
    (hmem : ∀ i, i < n → s.mem (data + i) = bytes.getD i 0) :
    tx_bytes (tx_interrupts rs (hal_uart_dma_send_block data n s)).log
      = tx_bytes s.log ++ bytes ∧
    (∀ k, k < n →
      calls (tx_interrupts (rs.take k) (hal_uart_dma_send_block data n s)).log
        = calls s.log) ∧
    (∃ seen,
      calls (tx_interrupts rs (hal_uart_dma_send_block data n s)).log
        = calls s.log ++ [(s.tx_done_handler, seen)] ∧
      seen.bytes_to_write = 0 ∧ seen.UCA0IE.testBit 1 = false) ∧
    (tx_interrupts rs (hal_uart_dma_send_block data n s)).bytes_to_write = 0 ∧
    ¬ tx_irq_enabled (tx_interrupts rs (hal_uart_dma_send_block data n s)) := by
  obtain ⟨a1, a2, a3, a4, a5, a6⟩ := send_block_facts data n s
  have hn : n % 65536 = n := Nat.mod_eq_of_lt (by omega)
  rw [hn] at a1
  generalize hal_uart_dma_send_block data n s = t at a1 a2 a3 a4 a5 a6 ⊢
  have hA : rs.length ≤ t.bytes_to_write := by omega
  have hB : t.bytes_to_write < 65536 := by omega
  have hD : 0 < rs.length := by omega
  have hE : rs.length = t.bytes_to_write := by omega
  obtain ⟨r1, _, _, _, r5, _, r7⟩ := tx_run rs t hA hB
  obtain ⟨seen, c, q1, q2, q3⟩ := r7 hD hE
  refine ⟨?_, ?_, ⟨seen, by rw [c, a5, a3], q1, q2⟩, by rw [r1]; omega, ?_⟩
  · rw [r5, a6, a4, a2, hrs, ← hlen]
    congr 1
    apply map_range_eq_of_getD
    intro i hi
    have hi2 : i < n := by omega
    unfold load8
    rw [hmem i hi2, List.getD_eq_getElem bytes 0 hi]
    exact Nat.mod_eq_of_lt (hbyte _ (List.getElem_mem _))
  · intro k hk
    have hlen : (rs.take k).length = k := by
      rw [List.length_take]; omega
    have hA2 : (rs.take k).length ≤ t.bytes_to_write := by omega
    have hC : (rs.take k).length < t.bytes_to_write := by omega
    have r := (tx_run (rs.take k) t hA2 hB).2.2.2.2.2.1 hC
    rw [r.1, a5]
  · unfold tx_irq_enabled
    rw [q3]; simp

/-- Witness for C4: the three bytes 0xA1, 0x5C, 0x07 at address 9216 are sent in
this order. -/
theorem tx_block_sends_in_order_witness :
    (1 ≤ 3 ∧ 3 ≤ 65535 ∧ [0, 0, 0].length = 3 ∧ [0xA1, 0x5C, 0x07].length = 3 ∧
      (∀ b ∈ [0xA1, 0x5C, 0x07], b < 256) ∧
      (∀ i, i < 3 →
        (with_bytes 9216 [0xA1, 0x5C, 0x07] reset_state).mem (9216 + i)
          = [0xA1, 0x5C, 0x07].getD i 0)) ∧
    tx_bytes (tx_interrupts [0, 0, 0]
      (hal_uart_dma_send_block 9216 3 (with_bytes 9216 [0xA1, 0x5C, 0x07] reset_state))).log
      = tx_bytes (with_bytes 9216 [0xA1, 0x5C, 0x07] reset_state).log ++ [0xA1, 0x5C, 0x07] ∧
    (tx_interrupts [0, 0, 0]
      (hal_uart_dma_send_block 9216 3
        (with_bytes 9216 [0xA1, 0x5C, 0x07] reset_state))).bytes_to_write = 0 :=
  ⟨by decide,
   (tx_block_sends_in_order 9216 3 [0xA1, 0x5C, 0x07] [0, 0, 0]
     (with_bytes 9216 [0xA1, 0x5C, 0x07] reset_state)
     (by decide) (by decide) rfl rfl (by decide) (by decide)).1,
   (tx_block_sends_in_order 9216 3 [0xA1, 0x5C, 0x07] [0, 0, 0]
     (with_bytes 9216 [0xA1, 0x5C, 0x07] reset_state)
     (by decide) (by decide) rfl rfl (by decide) (by decide)).2.2.2.1⟩

/-! ## A receive call with interrupts served inside it -/

theorem receive_block_preempted_nil (buf len ifg : Nat) (s : State) :
    hal_uart_dma_receive_block_preempted buf len ifg [] s
      = hal_uart_dma_receive_block buf len ifg s := rfl

theorem serve_nil (s : State) : serve [] s = s := rfl

theorem serve_cons (e : Nat × Nat) (rest : List (Nat × Nat)) (s : State) :
    serve (e :: rest) s = serve rest (usbRxTxISR e.1 e.2 s) := rfl

theorem serve_one (iv b : Nat) (s : State) : serve [(iv, b)] s = usbRxTxISR iv b s := by
  rw [serve_cons, serve_nil]

theorem until_enabled_eq (buf len : Nat) (s : State) :
    receive_block_until_enabled buf len s =
      { s with
        rx_buffer_ptr := buf
        bytes_to_read := len % 65536
        UCA0IE := or8 (andnot8 s.UCA0IE UCRXIE) UCRXIE
        log := s.log ++ [Event.write Reg.UCA0IE (andnot8 s.UCA0IE UCRXIE),
                         Event.write Reg.UCA0IE (or8 (andnot8 s.UCA0IE UCRXIE) UCRXIE)] } := by
  simp [receive_block_until_enabled, wr, emit]

theorem after_enabled_eq (ifg : Nat) (t : State) :
    receive_block_after_enabled ifg t =
      if ifg &&& UCRXIFG = 0 then
        { t with
          P2OUT := andnot8 t.P2OUT RTS_PIN
          log := t.log ++ [Event.write Reg.P2OUT (andnot8 t.P2OUT RTS_PIN)] }
      else t := by
  by_cases h : ifg &&& UCRXIFG = 0
  · simp [receive_block_after_enabled, hal_uart_dma_enable_rx, wr, emit, h]
  · simp [receive_block_after_enabled, h]

theorem isr_other_vector_P2OUT (iv b : Nat) (s : State) (h2 : iv ≠ 2) :
    (usbRxTxISR iv b s).P2OUT = s.P2OUT := by
  by_cases h4 : iv = 4
  · subst h4
    by_cases hz : s.bytes_to_write = 0
    · simp [usbRxTxISR, hz, wr, emit]
    · by_cases hd : dec16 s.bytes_to_write > 0
      · simp [usbRxTxISR, hz, hd, wr, emit]
      · have hd0 : dec16 s.bytes_to_write = 0 := by omega
        simp [usbRxTxISR, hz, hd0, wr, emit, invoke]
  · simp [usbRxTxISR, h2, h4]

theorem isr_other_vector_count (iv b : Nat) (s : State) (h2 : iv ≠ 2) :
    (usbRxTxISR iv b s).bytes_to_read = s.bytes_to_read := by
  by_cases h4 : iv = 4
  · subst h4
    by_cases hz : s.bytes_to_write = 0
    · simp [usbRxTxISR, hz, wr, emit]
    · by_cases hd : dec16 s.bytes_to_write > 0
      · simp [usbRxTxISR, hz, hd, wr, emit]
      · have hd0 : dec16 s.bytes_to_write = 0 := by omega
        simp [usbRxTxISR, hz, hd0, wr, emit, invoke]
  · simp [usbRxTxISR, h2, h4]

theorem isr_keeps_idle_stop (iv b : Nat) (s : State)
    (hinv : s.bytes_to_read = 0 → s.P2OUT.testBit 3 = true) :
    (usbRxTxISR iv b s).bytes_to_read = 0 → (usbRxTxISR iv b s).P2OUT.testBit 3 = true := by
  by_cases h2 : iv = 2
  · subst h2
    by_cases hz : s.bytes_to_read = 0
    · intro _
      rw [rx_idle_step b s hz]
      exact testBit_or8_same _
    · by_cases hd : dec16 s.bytes_to_read > 0
      · intro h0
        simp [usbRxTxISR, hz, store8, emit, hd, hal_uart_dma_enable_rx, wr] at h0
        omega
      · intro _
        simp only [usbRxTxISR, hz, if_true, if_false, store8, emit, hd, wr, invoke]
        exact testBit_or8_same _
  · rw [isr_other_vector_P2OUT iv b s h2, isr_other_vector_count iv b s h2]
    exact hinv

/-! ## Flow control invariant (C5) -/

theorem idle_stop_step (cts : Bool) (o : Op) (s : State) (ho : o.admissible)
    (hu : o.unpreempted) (hinv : s.bytes_to_read = 0 → rts_stop s) :
    (o.exec cts s).bytes_to_read = 0 → rts_stop (o.exec cts s) := by
  unfold rts_stop at hinv ⊢
  cases o with
  | set_baud baud =>
    obtain ⟨b1, b2, _⟩ := set_baud_frame baud s
    simp only [Op.exec]
    rw [b1, b2]; exact hinv
  | set_block_received h => exact hinv
  | set_block_sent h => exact hinv
  | set_csr_irq_handler h =>
    simp only [Op.exec, hal_uart_dma_set_csr_irq_handler]
    split_ifs <;> simpa [wr, emit] using hinv
  | send_block data len =>
    simp only [Op.exec]
    rw [send_block_eq]
    exact hinv
  | receive_block buffer len ifg =>
    obtain ⟨a1, _⟩ := receive_block_facts buffer len ifg s
    simp only [Op.exec]
    intro h0
    rw [a1] at h0
    have := ho
    simp only [Op.admissible] at this
    have hmod : len % 65536 = len := Nat.mod_eq_of_lt this.2
    omega
  | receive_block_preempted buffer len ifg irqs =>
    simp only [Op.unpreempted] at hu
    subst hu
    obtain ⟨a1, _⟩ := receive_block_facts buffer len ifg s
    simp only [Op.exec, receive_block_preempted_nil]
    intro h0
    rw [a1] at h0
    have := ho
    simp only [Op.admissible] at this
    have hmod : len % 65536 = len := Nat.mod_eq_of_lt this.2
    omega
  | shutdown =>
    simpa [Op.exec, hal_uart_dma_shutdown, wr, emit] using hinv
  | interrupt iv rxbuf =>
    simp only [Op.exec]
    exact isr_keeps_idle_stop iv rxbuf s hinv

theorem idle_stop_run (cts : Bool) (ops : List Op) : ∀ s : State,
    (∀ o ∈ ops, o.admissible ∧ o.unpreempted) → (s.bytes_to_read = 0 → rts_stop s) →
    (run_ops cts ops s).bytes_to_read = 0 → rts_stop (run_ops cts ops s) := by
  induction ops with
  | nil => intro s _ hinv; exact hinv
  | cons o rest ih =>
    intro s hadm hinv
    have hfold : run_ops cts (o :: rest) s = run_ops cts rest (o.exec cts s) := rfl
    rw [hfold]
    apply ih
    · intro p hp; exact hadm p (List.mem_cons_of_mem _ hp)
    · exact idle_stop_step cts o s (hadm o (List.mem_cons_self _ _)).1
        (hadm o (List.mem_cons_self _ _)).2 hinv

theorem until_enabled_facts (buf len : Nat) (s : State) :
    (receive_block_until_enabled buf len s).bytes_to_read = len % 65536 ∧
    (receive_block_until_enabled buf len s).rx_buffer_ptr = buf ∧
    (receive_block_until_enabled buf len s).rx_done_handler = s.rx_done_handler ∧
    (receive_block_until_enabled buf len s).mem = s.mem ∧
    calls (receive_block_until_enabled buf len s).log = calls s.log ∧
    (receive_block_until_enabled buf len s).UCA0IE = or8 (andnot8 s.UCA0IE UCRXIE) UCRXIE ∧
    (receive_block_until_enabled buf len s).P2OUT = s.P2OUT := by
  rw [until_enabled_eq]
  simp [calls_append, calls, Event.asCall]

theorem after_enabled_facts (ifg : Nat) (t : State) :
    (receive_block_after_enabled ifg t).bytes_to_read = t.bytes_to_read ∧
    (receive_block_after_enabled ifg t).rx_buffer_ptr = t.rx_buffer_ptr ∧
    (receive_block_after_enabled ifg t).mem = t.mem ∧
    calls (receive_block_after_enabled ifg t).log = calls t.log ∧
    (receive_block_after_enabled ifg t).UCA0IE = t.UCA0IE ∧
    (receive_block_after_enabled ifg t).P2OUT =
      (if ifg &&& UCRXIFG = 0 then andnot8 t.P2OUT RTS_PIN else t.P2OUT) := by
  rw [after_enabled_eq]
  split <;> simp [calls_append, calls, Event.asCall]

theorem preempted_one_byte (buf ifg b : Nat) (s : State) (hclear : ifg &&& UCRXIFG = 0) :
    (hal_uart_dma_receive_block_preempted buf 1 ifg [(2, b)] s).bytes_to_read = 0 ∧
    (hal_uart_dma_receive_block_preempted buf 1 ifg [(2, b)] s).P2OUT.testBit 3 = false ∧
    ∃ seen, calls (hal_uart_dma_receive_block_preempted buf 1 ifg [(2, b)] s).log
      = calls s.log ++ [(s.rx_done_handler, seen)] := by
  obtain ⟨u1, _, u3, _, u5, _, _⟩ := until_enabled_facts buf 1 s
  have hone : 1 % 65536 = 1 := by decide
  rw [hone] at u1
  unfold hal_uart_dma_receive_block_preempted
  rw [serve_one]
  generalize receive_block_until_enabled buf 1 s = u at u1 u3 u5 ⊢
  obtain ⟨f1, _, f3, _, f5, _, _⟩ := rx_last_facts b u u1
  generalize usbRxTxISR 2 b u = t at f1 f3 f5 ⊢
  obtain ⟨g1, _, _, g4, _, g6⟩ := after_enabled_facts ifg t
  rw [if_pos hclear] at g6
  refine ⟨by rw [g1, f1], by rw [g6]; exact testBit_andnot8_same _, ?_⟩
  exact ⟨_, by rw [g4, f5, u5, u3]⟩

/-- C5 fails on the code when the RX interrupt is served inside
`hal_uart_dma_receive_block`.  In every state reached from the state left by
`hal_uart_dma_init` by admissible operations none of which has an interrupt
served inside it, `bytes_to_read = 0` implies that RTS is high.  But a
one-byte receive whose byte arrives after the flag was sampled clear, and
whose interrupt is served right after `UCRXIE` is set, returns with
`bytes_to_read = 0`, the block reported complete, and RTS low (go). -/
theorem idle_rts_stop_up_to_preemption :
    (∀ (cts : Bool) (s0 : State) (ops : List Op),
      (∀ o ∈ ops, o.admissible ∧ o.unpreempted) →
      (run_ops cts ops (hal_uart_dma_init s0)).bytes_to_read = 0 →
      rts_stop (run_ops cts ops (hal_uart_dma_init s0))) ∧
    (∀ (cts : Bool) (buf ifg b : Nat) (s0 : State), ifg &&& UCRXIFG = 0 →
      (Op.receive_block_preempted buf 1 ifg [(2, b)]).admissible ∧
      (run_ops cts [Op.receive_block_preempted buf 1 ifg [(2, b)]]
        (hal_uart_dma_init s0)).bytes_to_read = 0 ∧
      rts_go (run_ops cts [Op.receive_block_preempted buf 1 ifg [(2, b)]]
        (hal_uart_dma_init s0)) ∧
      ∃ seen, calls (run_ops cts [Op.receive_block_preempted buf 1 ifg [(2, b)]]
          (hal_uart_dma_init s0)).log
        = calls (hal_uart_dma_init s0).log ++ [((hal_uart_dma_init s0).rx_done_handler, seen)]) := by
  constructor
  · intro cts s0 ops hadm h0
    apply idle_stop_run cts ops (hal_uart_dma_init s0) hadm _ h0
    intro _
    unfold rts_stop
    rw [(init_frame s0).1]
    exact testBit_or8_same _
  · intro cts buf ifg b s0 hclear
    obtain ⟨p1, p2, p3⟩ := preempted_one_byte buf ifg b (hal_uart_dma_init s0) hclear
    have hadm : (Op.receive_block_preempted buf 1 ifg [(2, b)]).admissible := by
      show 0 < 1 ∧ 1 < 65536
      decide
    exact ⟨hadm, p1, p2, p3⟩

/-- Witness for C5: without pre-emption a one-byte receive completed by an RX
interrupt and followed by a shutdown ends idle with RTS high; with the RX
interrupt served inside the call it ends idle with RTS low. -/
theorem idle_rts_stop_up_to_preemption_witness :
    ((∀ o ∈ [Op.receive_block 9216 1 0, Op.interrupt 2 7, Op.shutdown],
        o.admissible ∧ o.unpreempted) ∧
      (run_ops true [Op.receive_block 9216 1 0, Op.interrupt 2 7, Op.shutdown]
        (hal_uart_dma_init reset_state)).bytes_to_read = 0 ∧
      0 &&& UCRXIFG = 0) ∧
    rts_stop (run_ops true [Op.receive_block 9216 1 0, Op.interrupt 2 7, Op.shutdown]
      (hal_uart_dma_init reset_state)) ∧
    (run_ops true [Op.receive_block_preempted 9216 1 0 [(2, 7)]]
      (hal_uart_dma_init reset_state)).bytes_to_read = 0 ∧
    rts_go (run_ops true [Op.receive_block_preempted 9216 1 0 [(2, 7)]]
      (hal_uart_dma_init reset_state)) :=
  ⟨by decide,
   idle_rts_stop_up_to_preemption.1 true reset_state
     [Op.receive_block 9216 1 0, Op.interrupt 2 7, Op.shutdown] (by decide) (by decide),
   (idle_rts_stop_up_to_preemption.2 true 9216 0 7 reset_state (by decide)).2.1,
   (idle_rts_stop_up_to_preemption.2 true 9216 0 7 reset_state (by decide)).2.2.1⟩

/-! ## Arming a receive: pending byte (C6) -/

theorem rx_more_P2OUT (b : Nat) (s : State) (h1 : 1 < s.bytes_to_read)
    (h2 : s.bytes_to_read < 65536) :
    (usbRxTxISR 2 b s).P2OUT = andnot8 s.P2OUT RTS_PIN := by
  rw [rx_step_more b s h1 h2]

/-- C6, as stated, fails when the pending byte's interrupt is served inside
the call: a receive of four bytes armed after init with `UCRXIFG` set returns
with `bytes_to_read = 3`, not 4, and with RTS changed from high to low. -/
theorem receive_block_pending_served_counterexample :
    1 &&& UCRXIFG ≠ 0 ∧
    (hal_uart_dma_receive_block_preempted 9216 4 1 [(2, 7)]
      (hal_uart_dma_init reset_state)).bytes_to_read ≠ 4 ∧
    rts_stop (hal_uart_dma_init reset_state) ∧
    rts_go (hal_uart_dma_receive_block_preempted 9216 4 1 [(2, 7)]
      (hal_uart_dma_init reset_state)) := by
  decide

/-- C6 (amended): `hal_uart_dma_receive_block buf len` (with `len` a `uint16_t`).
Up to and including the write that sets `UCRXIE` it has stored
`bytes_to_read = len` and `rx_buffer_ptr = buf` and has not written `P2OUT`.
The rest of the function depends only on the flag sampled before: it drives
RTS low if `UCRXIFG` was clear and does nothing if it was set.  If no interrupt
is served inside the call, then on return `bytes_to_read = len`,
`rx_buffer_ptr = buf`, `UCRXIE` is set, and RTS is low (flag clear) or `P2OUT`
is what it was before the call (flag set).  If the flag was set and the
interrupt of the pending byte is served inside the call, right after `UCRXIE`
is set, then on return `bytes_to_read = len - 1`, `rx_buffer_ptr = buf + 1`,
`buf[0]` holds the byte, and RTS is as the ISR left it: low with `UCRXIE` set
when `len > 1`, high with `UCRXIE` clear and `rx_done_handler` called when
`len = 1`. -/
theorem receive_block_pending_policy :
    (∀ (buf len : Nat) (s : State), len < 65536 →
      (receive_block_until_enabled buf len s).bytes_to_read = len ∧
      (receive_block_until_enabled buf len s).rx_buffer_ptr = buf ∧
      rx_irq_enabled (receive_block_until_enabled buf len s) ∧
      (receive_block_until_enabled buf len s).P2OUT = s.P2OUT) ∧
    (∀ (ifg : Nat) (t : State),
      (receive_block_after_enabled ifg t).P2OUT
        = (if ifg &&& UCRXIFG = 0 then andnot8 t.P2OUT RTS_PIN else t.P2OUT) ∧
      (receive_block_after_enabled ifg t).bytes_to_read = t.bytes_to_read ∧
      (receive_block_after_enabled ifg t).rx_buffer_ptr = t.rx_buffer_ptr ∧
      (receive_block_after_enabled ifg t).UCA0IE = t.UCA0IE) ∧
    (∀ (buf len ifg : Nat) (s : State), len < 65536 →
      (hal_uart_dma_receive_block buf len ifg s).bytes_to_read = len ∧
      (hal_uart_dma_receive_block buf len ifg s).rx_buffer_ptr = buf ∧
      rx_irq_enabled (hal_uart_dma_receive_block buf len ifg s) ∧
      (ifg &&& UCRXIFG = 0 → rts_go (hal_uart_dma_receive_block buf len ifg s)) ∧
      (ifg &&& UCRXIFG ≠ 0 →
        (hal_uart_dma_receive_block buf len ifg s).P2OUT = s.P2OUT ∧
        (rts_stop s → rts_stop (hal_uart_dma_receive_block buf len ifg s))) ∧
      (hal_uart_dma_receive_block buf len ifg s).P2OUT
        = (if ifg &&& UCRXIFG = 0 then andnot8 s.P2OUT RTS_PIN else s.P2OUT)) ∧
    (∀ (buf len ifg b : Nat) (s : State), 1 ≤ len → len < 65536 → ifg &&& UCRXIFG ≠ 0 →
      (hal_uart_dma_receive_block_preempted buf len ifg [(2, b)] s).bytes_to_read = len - 1 ∧
      (hal_uart_dma_receive_block_preempted buf len ifg [(2, b)] s).rx_buffer_ptr = buf + 1 ∧
      (hal_uart_dma_receive_block_preempted buf len ifg [(2, b)] s).mem buf = b % 256 ∧
      (1 < len →
        rts_go (hal_uart_dma_receive_block_preempted buf len ifg [(2, b)] s) ∧
        rx_irq_enabled (hal_uart_dma_receive_block_preempted buf len ifg [(2, b)] s)) ∧
      (len = 1 →
        rts_stop (hal_uart_dma_receive_block_preempted buf len ifg [(2, b)] s) ∧
        ¬ rx_irq_enabled (hal_uart_dma_receive_block_preempted buf len ifg [(2, b)] s) ∧
        ∃ seen, calls (hal_uart_dma_receive_block_preempted buf len ifg [(2, b)] s).log
          = calls s.log ++ [(s.rx_done_handler, seen)])) := by
  refine ⟨?_, ?_, ?_, ?_⟩
  · intro buf len s hlen
    obtain ⟨u1, u2, _, _, _, u6, u7⟩ := until_enabled_facts buf len s
    refine ⟨by rw [u1]; exact Nat.mod_eq_of_lt hlen, u2, ?_, u7⟩
    unfold rx_irq_enabled
    rw [u6]; exact testBit_or8_rxie _
  · intro ifg t
    obtain ⟨g1, g2, _, _, g5, g6⟩ := after_enabled_facts ifg t
    exact ⟨g6, g1, g2, g5⟩
  · intro buf len ifg s hlen
    obtain ⟨a1, a2, _, _, _, a6, a7⟩ := receive_block_facts buf len ifg s
    refine ⟨by rw [a1]; exact Nat.mod_eq_of_lt hlen, a2, ?_, ?_, ?_, a7⟩
    · unfold rx_irq_enabled
      rw [a6]; exact testBit_or8_rxie _
    · intro h
      unfold rts_go
      rw [a7, if_pos h]; exact testBit_andnot8_same _
    · intro h
      rw [if_neg h] at a7
      refine ⟨a7, ?_⟩
      unfold rts_stop
      rw [a7]; exact id
  · intro buf len ifg b s h1 hlen hset
    obtain ⟨u1, u2, u3, u4, u5, u6, _⟩ := until_enabled_facts buf len s
    rw [Nat.mod_eq_of_lt hlen] at u1
    unfold hal_uart_dma_receive_block_preempted
    rw [serve_one]
    generalize receive_block_until_enabled buf len s = u at u1 u2 u3 u4 u5 u6 ⊢
    obtain ⟨g1, g2, g3, g4, g5, g6⟩ := after_enabled_facts ifg (usbRxTxISR 2 b u)
    rw [if_neg hset] at g6
    unfold rts_go rts_stop rx_irq_enabled
    rw [g1, g2, g3, g4, g5, g6]
    by_cases hl : len = 1
    · have hu : u.bytes_to_read = 1 := by omega
      obtain ⟨f1, f2, f3, f4, f5, f6, f7⟩ := rx_last_facts b u hu
      refine ⟨by rw [f1]; omega, by rw [f2, u2], by rw [f4 buf, u2]; simp, ?_, ?_⟩
      · intro h; omega
      · intro _
        refine ⟨by rw [f7]; exact testBit_or8_same _, ?_, _, by rw [f5, u5, u3]⟩
        rw [f6]
        have := testBit_andnot8_rxie u.UCA0IE
        simp only [this]; simp
    · have hu : 1 < u.bytes_to_read := by omega
      have hu2 : u.bytes_to_read < 65536 := by omega
      obtain ⟨f1, f2, f3, f4, f5, f6⟩ := rx_more_facts b u hu hu2
      have f7 := rx_more_P2OUT b u hu hu2
      refine ⟨by rw [f1, u1], by rw [f2, u2], by rw [f4 buf, u2]; simp, ?_, ?_⟩
      · intro _
        refine ⟨by rw [f7]; exact testBit_andnot8_same _, ?_⟩
        rw [f6, u6]; exact testBit_or8_rxie _
      · intro h; exact absurd h hl

/-- Witness for C6 (amended): a receive of four bytes armed after init, with no
byte pending, with a byte pending and no interrupt served inside the call, and
with the pending byte's interrupt served inside the call. -/
theorem receive_block_pending_policy_witness :
    (4 < 65536 ∧ 1 ≤ 4 ∧ 1 &&& UCRXIFG ≠ 0 ∧ 0 &&& UCRXIFG = 0) ∧
    (receive_block_until_enabled 9216 4 (hal_uart_dma_init reset_state)).bytes_to_read = 4 ∧
    (hal_uart_dma_receive_block 9216 4 1 (hal_uart_dma_init reset_state)).P2OUT
      = (hal_uart_dma_init reset_state).P2OUT ∧
    rts_go (hal_uart_dma_receive_block 9216 4 0 (hal_uart_dma_init reset_state)) ∧
    (hal_uart_dma_receive_block_preempted 9216 4 1 [(2, 7)]
      (hal_uart_dma_init reset_state)).bytes_to_read = 4 - 1 :=
  ⟨by decide,
   (receive_block_pending_policy.1 9216 4 (hal_uart_dma_init reset_state) (by decide)).1,
   ((receive_block_pending_policy.2.2.1 9216 4 1 (hal_uart_dma_init reset_state)
      (by decide)).2.2.2.2.1 (by decide)).1,
   (receive_block_pending_policy.2.2.1 9216 4 0 (hal_uart_dma_init reset_state)
      (by decide)).2.2.2.1 (by decide),
   (receive_block_pending_policy.2.2.2 9216 4 1 7 (hal_uart_dma_init reset_state)
      (by decide) (by decide) (by decide)).1⟩

/-! ## Where RTS goes from stop to go (C12) -/

/-- C12, as stated, fails: a receive of two bytes is armed after init while a
byte is pending, so RTS stays high; the first RX interrupt leaves one byte to
read and drives RTS from high to low. -/
theorem rx_interrupt_lowers_rts_counterexample :
    rts_stop (hal_uart_dma_receive_block 9216 2 1 (hal_uart_dma_init reset_state)) ∧
    rts_go (usbRxTxISR 2 7
      (hal_uart_dma_receive_block 9216 2 1 (hal_uart_dma_init reset_state))) := by
  decide

theorem isr_lowers_rts_only_armed (iv b : Nat) (s : State)
    (hs : s.P2OUT.testBit 3 = true) (hg : (usbRxTxISR iv b s).P2OUT.testBit 3 = false) :
    iv = 2 ∧ s.bytes_to_read ≠ 0 ∧ 0 < (usbRxTxISR iv b s).bytes_to_read := by
  by_cases h2 : iv = 2
  · subst h2
    by_cases hz : s.bytes_to_read = 0
    · have : (usbRxTxISR 2 b s).P2OUT = or8 s.P2OUT RTS_PIN := by
        rw [rx_idle_step b s hz]
      rw [this] at hg
      have hh : (or8 s.P2OUT RTS_PIN).testBit 3 = true := testBit_or8_same _
      rw [hh] at hg
      cases hg
    · by_cases hd : dec16 s.bytes_to_read > 0
      · refine ⟨rfl, hz, ?_⟩
        have : (usbRxTxISR 2 b s).bytes_to_read = dec16 s.bytes_to_read := by
          simp [usbRxTxISR, hz, hd, store8, emit, hal_uart_dma_enable_rx, wr]
        rw [this]; exact hd
      · have : (usbRxTxISR 2 b s).P2OUT = or8 s.P2OUT RTS_PIN := by
          simp [usbRxTxISR, hz, hd, store8, emit, wr, invoke]
        rw [this] at hg
        have hh : (or8 s.P2OUT RTS_PIN).testBit 3 = true := testBit_or8_same _
        rw [hh] at hg
        cases hg
  · rw [isr_other_vector_P2OUT iv b s h2, hs] at hg
    cases hg

theorem serve_without_rx_P2OUT (irqs : List (Nat × Nat)) : ∀ s : State,
    (∀ e ∈ irqs, e.1 ≠ 2) → (serve irqs s).P2OUT = s.P2OUT := by
  induction irqs with
  | nil => intro s _; rfl
  | cons e rest ih =>
    intro s h
    rw [serve_cons, ih _ (fun p hp => h p (List.mem_cons_of_mem _ hp))]
    exact isr_other_vector_P2OUT e.1 e.2 s (h e (List.mem_cons_self _ _))

/-- C12 (amended): RTS goes from high (stop) to low (go) only in
`hal_uart_dma_receive_block` or in an RX interrupt.  An interrupt lowers RTS
only if it is an RX interrupt (`UCA0IV = 2`) taken with `bytes_to_read` not 0,
and it then leaves `bytes_to_read > 0`.  Inside `hal_uart_dma_receive_block` the
statements up to the write that sets `UCRXIE` do not write `P2OUT`, and the rest
of the function lowers RTS only if no byte was pending at the sample.  For the
operations as a whole: a call with no interrupt served inside lowers RTS only
with no byte pending and leaves `bytes_to_read > 0`; a call with interrupts
served inside lowers RTS only with no byte pending or with an RX interrupt among
them.  `set_baud`, the handler setters, `send_block`, `shutdown` and TX
interrupts never lower RTS, and neither do `hal_uart_dma_init` (which drives
RTS high) and `ctsISR`. -/
theorem rts_go_only_when_armed :
    (∀ (iv b : Nat) (s : State), rts_stop s → rts_go (usbRxTxISR iv b s) →
      iv = 2 ∧ s.bytes_to_read ≠ 0 ∧ 0 < (usbRxTxISR iv b s).bytes_to_read) ∧
    (∀ (buf len : Nat) (s : State),
      (receive_block_until_enabled buf len s).P2OUT = s.P2OUT) ∧
    (∀ (ifg : Nat) (t : State), rts_stop t → rts_go (receive_block_after_enabled ifg t) →
      ifg &&& UCRXIFG = 0) ∧
    (∀ (cts : Bool) (o : Op) (s : State),
      o.admissible → rts_stop s → rts_go (o.exec cts s) →
      (∃ buf len ifg, o = Op.receive_block buf len ifg ∧ ifg &&& UCRXIFG = 0 ∧
        0 < (o.exec cts s).bytes_to_read) ∨
      (∃ buf len ifg irqs, o = Op.receive_block_preempted buf len ifg irqs ∧
        (ifg &&& UCRXIFG = 0 ∨ ∃ e ∈ irqs, e.1 = 2)) ∨
      (∃ b, o = Op.interrupt 2 b ∧ s.bytes_to_read ≠ 0 ∧
        0 < (o.exec cts s).bytes_to_read)) ∧
    (∀ s : State, rts_stop (hal_uart_dma_init s)) ∧
    (∀ s : State, (ctsISR s).P2OUT = s.P2OUT) := by
  refine ⟨?_, ?_, ?_, ?_, ?_, ?_⟩
  · intro iv b s hs hg
    exact isr_lowers_rts_only_armed iv b s hs hg
  · intro buf len s
    exact (until_enabled_facts buf len s).2.2.2.2.2.2
  · intro ifg t hs hg
    unfold rts_stop at hs
    unfold rts_go at hg
    by_contra hne
    have g6 := (after_enabled_facts ifg t).2.2.2.2.2
    rw [if_neg hne] at g6
    rw [g6, hs] at hg
    cases hg
  · intro cts o s ho hs hg
    unfold rts_stop at hs
    unfold rts_go at hg
    have absurd_same : ∀ t : State, t.P2OUT = s.P2OUT → t.P2OUT.testBit 3 = false → False := by
      intro t ht hf
      rw [ht, hs] at hf
      cases hf
    cases o with
    | set_baud baud =>
      exact (absurd_same _ (set_baud_frame baud s).1 hg).elim
    | set_block_received h => exact (absurd_same _ rfl hg).elim
    | set_block_sent h => exact (absurd_same _ rfl hg).elim
    | set_csr_irq_handler h =>
      refine (absurd_same _ ?_ hg).elim
      simp only [Op.exec, hal_uart_dma_set_csr_irq_handler]
      split_ifs <;> simp [wr, emit]
    | send_block data len =>
      refine (absurd_same _ ?_ hg).elim
      simp only [Op.exec]
      rw [send_block_eq]
    | receive_block buffer len ifg =>
      obtain ⟨a1, _, _, _, _, _, a7⟩ := receive_block_facts buffer len ifg s
      simp only [Op.exec] at hg ⊢
      simp only [Op.admissible] at ho
      by_cases hp : ifg &&& UCRXIFG = 0
      · refine Or.inl ⟨buffer, len, ifg, rfl, hp, ?_⟩
        rw [a1, Nat.mod_eq_of_lt ho.2]; exact ho.1
      · rw [if_neg hp] at a7
        exact (absurd_same _ a7 hg).elim
    | receive_block_preempted buffer len ifg irqs =>
      simp only [Op.exec, hal_uart_dma_receive_block_preempted] at hg
      refine Or.inr (Or.inl ⟨buffer, len, ifg, irqs, rfl, ?_⟩)
      by_cases hp : ifg &&& UCRXIFG = 0
      · exact Or.inl hp
      · right
        by_contra hno
        have hall : ∀ e ∈ irqs, e.1 ≠ 2 := by
          intro e he h2
          exact hno ⟨e, he, h2⟩
        have g6 := (after_enabled_facts ifg
          (serve irqs (receive_block_until_enabled buffer len s))).2.2.2.2.2
        rw [if_neg hp, serve_without_rx_P2OUT irqs _ hall,
          (until_enabled_facts buffer len s).2.2.2.2.2.2] at g6
        exact absurd_same _ g6 hg
    | shutdown =>
      refine (absurd_same _ ?_ hg).elim
      simp [Op.exec, hal_uart_dma_shutdown, wr, emit]
    | interrupt iv rxbuf =>
      simp only [Op.exec] at hg ⊢
      obtain ⟨h2, hz, hpos⟩ := isr_lowers_rts_only_armed iv rxbuf s hs hg
      subst h2
      exact Or.inr (Or.inr ⟨rxbuf, rfl, hz, hpos⟩)
  · intro s
    unfold rts_stop
    rw [(init_frame s).1]
    exact testBit_or8_same _
  · intro s
    simp [ctsISR, wr, emit, invoke]

/-- Witness for C12 (amended): the RX interrupt of the counterexample lowers RTS
and leaves one byte to read; a receive armed with no byte pending lowers RTS. -/
theorem rts_go_only_when_armed_witness :
    (rts_stop (hal_uart_dma_receive_block 9216 2 1 (hal_uart_dma_init reset_state)) ∧
      rts_go (usbRxTxISR 2 7
        (hal_uart_dma_receive_block 9216 2 1 (hal_uart_dma_init reset_state))) ∧
      rts_stop (hal_uart_dma_init reset_state) ∧
      rts_go (receive_block_after_enabled 0 (hal_uart_dma_init reset_state)) ∧
      (Op.receive_block 9216 4 0).admissible ∧
      rts_go ((Op.receive_block 9216 4 0).exec true (hal_uart_dma_init reset_state))) ∧
    0 < (usbRxTxISR 2 7
      (hal_uart_dma_receive_block 9216 2 1 (hal_uart_dma_init reset_state))).bytes_to_read ∧
    0 &&& UCRXIFG = 0 ∧
    ((∃ buf len ifg, Op.receive_block 9216 4 0 = Op.receive_block buf len ifg ∧
        ifg &&& UCRXIFG = 0 ∧
        0 < ((Op.receive_block 9216 4 0).exec true
          (hal_uart_dma_init reset_state)).bytes_to_read) ∨
      (∃ buf len ifg irqs,
        Op.receive_block 9216 4 0 = Op.receive_block_preempted buf len ifg irqs ∧
        (ifg &&& UCRXIFG = 0 ∨ ∃ e ∈ irqs, e.1 = 2)) ∨
      (∃ b, Op.receive_block 9216 4 0 = Op.interrupt 2 b ∧
        (hal_uart_dma_init reset_state).bytes_to_read ≠ 0 ∧
        0 < ((Op.receive_block 9216 4 0).exec true
          (hal_uart_dma_init reset_state)).bytes_to_read)) :=
  ⟨by decide,
   (rts_go_only_when_armed.1 2 7
     (hal_uart_dma_receive_block 9216 2 1 (hal_uart_dma_init reset_state))
     (by decide) (by decide)).2.2,
   rts_go_only_when_armed.2.2.1 0 (hal_uart_dma_init reset_state) (by decide) (by decide),
   rts_go_only_when_armed.2.2.2.1 true (Op.receive_block 9216 4 0)
     (hal_uart_dma_init reset_state) (by decide) (by decide) (by decide)⟩

end HalUartDma
